import Mathlib

/-
Verification of the tabbed-panel view controller (the Tabs component) against
its specification.  The definitions below are a shallow embedding of the Tabs
class: DOM element state is made explicit as records, the methods become pure
state-transition functions, and the externally visible side effects (network
fetches, image preloads, history pushes, custom events, console output) are
returned as an explicit effect trace.  Asynchronous methods are modelled as
big-step functions that additionally report the list of states observable at
each suspension point (awaits and timer waits), which is what a concurrently
arriving event handler would see.
-/

set_option maxHeartbeats 1000000

namespace Fodasu

/-- Kind of a DOM element collection.  querySelectorAll yields a NodeList,
which supports forEach but has no filter method; a JS Array supports both.
The DOM helper used by the component (helpers.js) is
`export const dollardollar = (selector, context) => context.querySelectorAll(selector)`,
so the collections stored on the Tabs instance are NodeLists. -/
inductive CollectionKind where
  | nodeList
  | array
  deriving DecidableEq, Repr

/-- JavaScript runtime errors relevant to the embedding. -/
inductive JSError where
  | typeError
  deriving DecidableEq, Repr

/-- One tab trigger button (`.tab-btn`): its data-tab attribute, text, the
class-list flags the component reads and writes, and the attributes written by
the accessibility sync. -/
structure TabButton where
  dataTab : String
  textContent : String
  activeClass : Bool
  loadingClass : Bool
  ariaSelected : Option Bool
  tabIndexAttr : Option Int
  roleAttr : Option String
  ariaControls : Option String
  idAttr : Option String
  deriving DecidableEq, Repr

/-- One tab content panel (`.tab-content`): its id, class-list flag, the
attributes written by the accessibility sync, the lazy-load attributes read by
preloadTabContent, its markup, its images (those still carrying data-src and
those already given a src), and the inline styles the transition writes. -/
structure TabPanel where
  id : String
  activeClass : Bool
  ariaHidden : Option Bool
  roleAttr : Option String
  ariaLabelledby : Option String
  dataLoad : Bool
  dataLoaded : Bool
  dataLoadUrl : Option String
  innerHTML : String
  imgDataSrcs : List String
  imgSrcs : List String
  opacity : String
  transformStyle : String
  deriving DecidableEq, Repr

/-- The mutable state of one Tabs instance, together with the piece of browser
state it reads and writes (the location hash / history length, and the text of
the optional `#active-tab-title` element, `none` when that element is absent). -/
structure TabsState where
  tabContainersCount : Nat
  tabButtons : List TabButton
  tabContents : List TabPanel
  buttonsKind : CollectionKind
  activeTab : Option String
  transitioning : Bool
  urlHash : Option String
  historyLength : Nat
  titleText : Option String
  deriving DecidableEq, Repr

/-- Externally visible side effects, in the order they are issued. -/
inductive Effect where
  | fetch (url : String)
  | imgLoad (src : String)
  | urlPush (fragment : String)
  | animationRun
  | tabChangeEvent (tabId : String)
  | consoleWarn (tabId : String)
  | consoleError
  deriving DecidableEq, Repr

/-- Index of the first element satisfying `p`, mirroring querySelector
first-match semantics. -/
def firstIdx {α : Type} (p : α → Bool) : List α → Option Nat
  | [] => none
  | a :: l => if p a then some 0 else (firstIdx p l).map (fun n => n + 1)

/-- Index of the first button whose data-tab attribute equals `tabId`. -/
def findButtonIdx (s : TabsState) (tabId : String) : Option Nat :=
  firstIdx (fun b => b.dataTab == tabId) s.tabButtons

/-- Index of the first panel whose id equals `tabId` (the `#targetTab` lookup). -/
def findContentIdx (s : TabsState) (tabId : String) : Option Nat :=
  firstIdx (fun c => c.id == tabId) s.tabContents

/-- Index of the first button carrying the active class (`.tab-btn.active`). -/
def activeButtonIdx (s : TabsState) : Option Nat :=
  firstIdx (fun b => b.activeClass) s.tabButtons

/-- Index of the first panel carrying the active class (`.tab-content.active`). -/
def activeContentIdx (s : TabsState) : Option Nat :=
  firstIdx (fun c => c.activeClass) s.tabContents

/-- Mutate the button at index `i` in place. -/
def updateButtonAt (s : TabsState) (i : Nat) (f : TabButton → TabButton) : TabsState :=
  match s.tabButtons[i]? with
  | some b => { s with tabButtons := s.tabButtons.set i (f b) }
  | none => s

/-- Mutate the panel at index `i` in place. -/
def updateContentAt (s : TabsState) (i : Nat) (f : TabPanel → TabPanel) : TabsState :=
  match s.tabContents[i]? with
  | some c => { s with tabContents := s.tabContents.set i (f c) }
  | none => s

/-- Look up a panel together with its index. -/
def findContentWithIdx (s : TabsState) (tabId : String) : Option (Nat × TabPanel) :=
  match findContentIdx s tabId with
  | some ci =>
    match s.tabContents[ci]? with
    | some c => some (ci, c)
    | none => none
  | none => none

/-- The inline retry affordance written into the panel on a load failure
(the `.tab-error` markup of preloadTabContent's catch branch). -/
def tabErrorHtml : String :=
  "<div class=\"tab-error\"><p>Failed to load content. Please try again.</p><button class=\"btn btn--secondary\">Retry</button></div>"

/-- Outcome of fetching a data-load-url: on success the response text (the new
innerHTML) together with the data-src images contained in it; on failure a
network error message. -/
abbrev FetchOracle := String → Except String (String × List String)

/-- Whether a given image url loads successfully. -/
abbrev ImgOracle := String → Bool

/-- Result of one preloadTabContent call: the mutated panel, the effect trace,
and whether the call threw (rejected). -/
structure PreloadResult where
  panel : TabPanel
  effects : List Effect
  threw : Bool
  deriving DecidableEq, Repr

/-- Image-preloading pass at the end of preloadTabContent: every img carrying a
data-src synchronously gets its src assigned and the data-src removed, and the
awaited `Promise.all` of the per-image load promises rejects exactly when some
image fails to load. -/
def preloadImages (iO : ImgOracle) (el : TabPanel) (effs : List Effect) : PreloadResult :=
  { panel := { el with imgSrcs := el.imgSrcs ++ el.imgDataSrcs, imgDataSrcs := [] },
    effects := effs ++ el.imgDataSrcs.map Effect.imgLoad,
    threw := !(el.imgDataSrcs.all iO) }

/-- Synchronous decision prefix of preloadTabContent: whether the call entering
now issues a fetch, and of which url (shouldLoad is data-load present and
data-loaded absent, and the fetch happens when data-load-url is present).  In
the source the data-loaded marker is written only after the awaited fetch and
text() have resolved, so a second call entering while a fetch for the same
panel is still in flight evaluates this same decision against the unmutated
panel. -/
def preloadDecision (el : TabPanel) : Option String :=
  if el.dataLoad && !el.dataLoaded then el.dataLoadUrl else none

/-- preloadTabContent: fetch the data-load-url when the decision prefix says
so (on success replace the innerHTML, record the data-loaded marker; on failure
write the retry affordance and rethrow), then run the image-preloading pass. -/
def preloadTabContent (fO : FetchOracle) (iO : ImgOracle) (el : TabPanel) : PreloadResult :=
  match preloadDecision el with
  | some url =>
    match fO url with
    | Except.ok (html, imgs) =>
      preloadImages iO
        { el with innerHTML := html, imgDataSrcs := imgs, imgSrcs := [], dataLoaded := true }
        [Effect.fetch url]
    | Except.error _ =>
      { panel := { el with innerHTML := tabErrorHtml, imgDataSrcs := [], imgSrcs := [] },
        effects := [Effect.fetch url],
        threw := true }
  | none => preloadImages iO el []

/-- Fetch effects issued when a second preloadTabContent call for the same
panel begins while the first call's fetch is still in flight: both synchronous
decision prefixes run before either call mutates the panel, so both read the
same panel state. -/
def interleavedPreloadFetches (el : TabPanel) : List Effect :=
  ((preloadDecision el).toList ++ (preloadDecision el).toList).map Effect.fetch

/-- Number of network fetches in an effect trace. -/
def countFetches (effs : List Effect) : Nat :=
  effs.countP (fun e => match e with | Effect.fetch _ => true | _ => false)

/-- `n` sequential (non-overlapping) preloadTabContent calls on the same panel:
final panel and total number of fetches issued. -/
def iteratePreload (fO : FetchOracle) (iO : ImgOracle) : Nat → TabPanel → TabPanel × Nat
  | 0, el => (el, 0)
  | n + 1, el =>
    let r := preloadTabContent fO iO el
    let rest := iteratePreload fO iO n r.panel
    (rest.1, countFetches r.effects + rest.2)

/-- Fade-out styles applied to the outgoing panel when performTabTransition
starts. -/
def ptFadeOutPanel (c : TabPanel) : TabPanel :=
  { c with opacity := "0", transformStyle := "translateY(10px)" }

/-- The synchronous prefix of performTabTransition: fade out the current
content (when there is one). -/
def ptFadeOut (s : TabsState) (curCi : Option Nat) : TabsState :=
  match curCi with
  | some k => updateContentAt s k ptFadeOutPanel
  | none => s

/-- The 300ms timeout callback of performTabTransition: remove the active
class from the captured current button and content, then add it to the new
button and content.  This is one synchronous block, so no observation point
falls between the removals and the additions. -/
def ptSwap (s : TabsState) (curBi curCi : Option Nat) (newBi newCi : Nat) : TabsState :=
  let s1 :=
    match curBi with
    | some k => updateButtonAt s k (fun b => { b with activeClass := false })
    | none => s
  let s2 :=
    match curCi with
    | some k => updateContentAt s1 k (fun c => { c with activeClass := false })
    | none => s1
  let s3 := updateButtonAt s2 newBi (fun b => { b with activeClass := true })
  updateContentAt s3 newCi (fun c => { c with activeClass := true })

/-- The 50ms timeout callback of performTabTransition: fade the new content
in, then resolve. -/
def ptFadeIn (s : TabsState) (newCi : Nat) : TabsState :=
  updateContentAt s newCi (fun c => { c with opacity := "1", transformStyle := "translateY(0)" })

/-- updateTabTitleDisplay: when the `#active-tab-title` element exists, set its
text to the trimmed text of the active button. -/
def updateTabTitleDisplay (s : TabsState) (activeButton : TabButton) : TabsState :=
  match s.titleText with
  | some _ => { s with titleText := some activeButton.textContent.trim }
  | none => s

/-- The attribute writes updateTabAccessibility performs on one button. -/
def accessBtn (b : TabButton) : TabButton :=
  { b with
    ariaSelected := some b.activeClass,
    tabIndexAttr := some (if b.activeClass then 0 else -1),
    roleAttr := some "tab",
    ariaControls := some b.dataTab,
    idAttr := some ("tab-" ++ b.dataTab) }

/-- The attribute writes updateTabAccessibility performs on one panel, given
the selectedness of the button that references it. -/
def accessPanel (isActive : Bool) (tag : String) (c : TabPanel) : TabPanel :=
  { c with
    ariaHidden := some (!isActive),
    roleAttr := some "tabpanel",
    ariaLabelledby := some tag }

/-- One iteration of updateTabAccessibility's forEach over the buttons: write
the button's aria attributes from its current active class, and when the panel
`#dataTab` exists write its aria attributes too. -/
def applyAccessibilityStep (s : TabsState) (i : Nat) : TabsState :=
  match s.tabButtons[i]? with
  | none => s
  | some b =>
    let s1 := { s with tabButtons := s.tabButtons.set i (accessBtn b) }
    match findContentIdx s1 b.dataTab with
    | some ci => updateContentAt s1 ci (accessPanel b.activeClass ("tab-" ++ b.dataTab))
    | none => s1

/-- updateTabAccessibility: forEach over the buttons in order. -/
def updateTabAccessibility (s : TabsState) : TabsState :=
  (List.range s.tabButtons.length).foldl applyAccessibilityStep s

/-- updateActiveStates: clear the active class (and reset styles) on every
button and panel, set the new button and panel active (with shown styles),
update the tab title display, then re-run the accessibility sync. -/
def updateActiveStates (s : TabsState) (newBi newCi : Nat) : TabsState :=
  let s1 := { s with
    tabButtons := s.tabButtons.map (fun b => { b with activeClass := false }),
    tabContents := s.tabContents.map (fun c =>
      { c with activeClass := false, opacity := "0", transformStyle := "translateY(10px)" }) }
  let s2 := updateButtonAt s1 newBi (fun b => { b with activeClass := true })
  let s3 := updateContentAt s2 newCi (fun c =>
    { c with activeClass := true, opacity := "1", transformStyle := "translateY(0)" })
  let s4 :=
    match s3.tabButtons[newBi]? with
    | some b => updateTabTitleDisplay s3 b
    | none => s3
  updateTabAccessibility s4

/-- How one switchToTab call ended: blocked by the re-entrancy or already-active
guard, aborted because the target panel is missing, failed in preload (caught),
or completed. -/
inductive SwitchResult where
  | blocked
  | missingPanel
  | failed
  | completed
  deriving DecidableEq, Repr

/-- Big-step result of one async call: final state, effect trace, how it
ended, and the states observable at each suspension point (awaits, timer
waits, microtask boundaries) while the call was in progress. -/
structure SwitchOutcome where
  state : TabsState
  effects : List Effect
  result : SwitchResult
  suspended : List TabsState
  deriving DecidableEq, Repr

/-- The part of switchToTab after the guard and target lookup have passed,
with `s1` the state whose transitioning flag is already set: capture the
current active button and content, push the new history entry, set the loading
class, await the preload (the panel swap-in happens when it resolves), and
either take the catch path (log, clear loading, back to Idle) or run the
transition, commit the active states, record activeTab and emit the change
event, the finally branch clearing the loading class and transitioning flag. -/
def switchAttempt (fO : FetchOracle) (iO : ImgOracle) (s1 : TabsState) (i ci : Nat)
    (targetTab : String) (target : TabPanel) : SwitchOutcome :=
  let curBi := activeButtonIdx s1
  let curCi := activeContentIdx s1
  let s2 := { s1 with urlHash := some targetTab, historyLength := s1.historyLength + 1 }
  let s3 := updateButtonAt s2 i (fun b => { b with loadingClass := true })
  let pr := preloadTabContent fO iO target
  let s4 := updateContentAt s3 ci (fun _ => pr.panel)
  if pr.threw then
    let s5 := updateButtonAt s4 i (fun b => { b with loadingClass := false })
    { state := { s5 with transitioning := false },
      effects := Effect.urlPush targetTab :: pr.effects ++ [Effect.consoleError],
      result := SwitchResult.failed,
      suspended := [s3, s4] }
  else
    let s5 := ptFadeOut s4 curCi
    let s6 := ptSwap s5 curBi curCi i ci
    let s7 := ptFadeIn s6 ci
    let s8 := updateActiveStates s7 i ci
    let s9 := { s8 with activeTab := some targetTab }
    let s10 := updateButtonAt s9 i (fun b => { b with loadingClass := false })
    { state := { s10 with transitioning := false },
      effects := Effect.urlPush targetTab :: pr.effects
        ++ [Effect.animationRun, Effect.tabChangeEvent targetTab],
      result := SwitchResult.completed,
      suspended := [s3, s4, s5, s6, s7] }

/-- switchToTab, big-stepped.  The guard, target lookup, history push and
loading-class write are the synchronous prefix; the preload await, the two
transition timers and the post-resolve microtask are the suspension points;
the catch branch logs and the finally branch always clears the loading class
and the transitioning flag. -/
def switchToTab (fO : FetchOracle) (iO : ImgOracle) (s : TabsState) (i : Nat) : SwitchOutcome :=
  match s.tabButtons[i]? with
  | none => { state := s, effects := [], result := SwitchResult.blocked, suspended := [] }
  | some button =>
    if s.transitioning || button.activeClass then
      { state := s, effects := [], result := SwitchResult.blocked, suspended := [] }
    else
      let s1 := { s with transitioning := true }
      let targetTab := button.dataTab
      match findContentWithIdx s1 targetTab with
      | none =>
        { state := { s1 with transitioning := false },
          effects := [Effect.consoleWarn targetTab],
          result := SwitchResult.missingPanel,
          suspended := [] }
      | some (ci, target) => switchAttempt fO iO s1 i ci targetTab target

/-- Continuation of setInitialActiveTab when the url fragment names no known
tab: the markup-declared active tab if any (`.tab-btn[data-tab].active`), else
the first tab button. -/
def setInitialFromMarkup (fO : FetchOracle) (iO : ImgOracle) (s : TabsState) : SwitchOutcome :=
  match firstIdx (fun b => b.activeClass) s.tabButtons with
  | some i => switchToTab fO iO s i
  | none =>
    match s.tabButtons with
    | [] => { state := s, effects := [], result := SwitchResult.blocked, suspended := [] }
    | _ :: _ => switchToTab fO iO s 0

/-- setInitialActiveTab: a nonempty location hash naming a known tab wins
(the `[data-tab="..."]` lookup; buttons are the elements carrying data-tab),
else the markup-declared active tab, else the first tab. -/
def setInitialActiveTab (fO : FetchOracle) (iO : ImgOracle) (s : TabsState) : SwitchOutcome :=
  match s.urlHash with
  | some h =>
    match findButtonIdx s h with
    | some i => switchToTab fO iO s i
    | none => setInitialFromMarkup fO iO s
  | none => setInitialFromMarkup fO iO s

/-- init: return immediately when there are no tab containers; otherwise bind
events (listener registration only, no modelled state), resolve the initial
active tab, then run the accessibility sync.  The source does not await the
initial switch; the model big-steps it, which agrees with the source whenever
that switch returns on a synchronous path.  handleResize only toggles layout
classes on the containers, which are not modelled. -/
def initTabs (fO : FetchOracle) (iO : ImgOracle) (s : TabsState) : TabsState × List Effect :=
  if s.tabContainersCount == 0 then (s, [])
  else
    let o := setInitialActiveTab fO iO s
    (updateTabAccessibility o.state, o.effects)

/-- The constructor: collect the buttons and panels with querySelectorAll
(hence tabButtons is a NodeList), start with activeTab null and transitioning
false, then run init. -/
def tabsConstructor (fO : FetchOracle) (iO : ImgOracle) (containers : Nat)
    (buttons : List TabButton) (contents : List TabPanel) (hash : Option String)
    (titleElem : Bool) : TabsState × List Effect :=
  initTabs fO iO
    { tabContainersCount := containers, tabButtons := buttons, tabContents := contents,
      buttonsKind := CollectionKind.nodeList, activeTab := none, transitioning := false,
      urlHash := hash, historyLength := 0,
      titleText := if titleElem then some "" else none }

/-- Calling `.filter` on a DOM collection: a NodeList has no filter method, so
the call throws a TypeError; a genuine Array filters. -/
def collectionFilter (k : CollectionKind) (xs : List TabButton) (p : TabButton → Bool) :
    Except JSError (List TabButton) :=
  match k with
  | CollectionKind.nodeList => Except.error JSError.typeError
  | CollectionKind.array => Except.ok (xs.filter p)

/-- Remove the button and panel elements, refresh the internal collections
(querySelectorAll again, still a NodeList) and re-run the accessibility sync. -/
def removeTabElements (s : TabsState) (bi ci : Nat) : TabsState :=
  updateTabAccessibility
    { s with tabButtons := s.tabButtons.eraseIdx bi,
             tabContents := s.tabContents.eraseIdx ci,
             buttonsKind := CollectionKind.nodeList }

/-- removeTab: when both the button and the panel exist, and the button is
active, first evaluate `this.tabButtons.filter(btn => btn !== button)` — on a
NodeList this throws before anything is removed.  When the filter succeeds
(only possible on a genuine Array) the first other tab is switched to (the
source does not await this call; the model big-steps it, and under the
NodeList collections actually constructed this branch is unreachable), then
the elements are removed. -/
def removeTab (fO : FetchOracle) (iO : ImgOracle) (s : TabsState) (tabId : String) :
    Except JSError (TabsState × List Effect) :=
  match findButtonIdx s tabId, findContentIdx s tabId with
  | some bi, some ci =>
    match s.tabButtons[bi]? with
    | none => Except.ok (s, [])
    | some button =>
      if button.activeClass then
        match collectionFilter s.buttonsKind s.tabButtons (fun btn => !(btn == button)) with
        | Except.error e => Except.error e
        | Except.ok otherTabs =>
          let after :=
            match otherTabs with
            | [] => (s, ([] : List Effect))
            | o :: _ =>
              match firstIdx (fun b => b == o) s.tabButtons with
              | some oi =>
                let r := switchToTab fO iO s oi
                (r.state, r.effects)
              | none => (s, [])
          Except.ok (removeTabElements after.1 bi ci, after.2)
      else
        Except.ok (removeTabElements s bi ci, [])
  | _, _ => Except.ok (s, [])

/-! Concrete fixtures used by witnesses and counterexamples. -/

/-- Oracle for which every fetch succeeds with static markup and no images. -/
def okOracle : FetchOracle := fun _ => Except.ok ("<p>ok</p>", [])

/-- Oracle for which every fetch fails. -/
def failOracle : FetchOracle := fun _ => Except.error "network"

/-- Oracle for which every image loads. -/
def allImgsOk : ImgOracle := fun _ => true

/-- A plain tab button with the given data-tab and active class. -/
def mkButton (t : String) (act : Bool) : TabButton :=
  { dataTab := t, textContent := t, activeClass := act, loadingClass := false,
    ariaSelected := none, tabIndexAttr := none, roleAttr := none,
    ariaControls := none, idAttr := none }

/-- A static content panel with the given id and active class. -/
def mkPanel (t : String) (act : Bool) : TabPanel :=
  { id := t, activeClass := act, ariaHidden := none, roleAttr := none,
    ariaLabelledby := none, dataLoad := false, dataLoaded := false,
    dataLoadUrl := none, innerHTML := "", imgDataSrcs := [], imgSrcs := [],
    opacity := "", transformStyle := "" }

/-- A not-yet-loaded panel with remote content at `url`. -/
def mkRemotePanel (t url : String) : TabPanel :=
  { mkPanel t false with dataLoad := true, dataLoadUrl := some url }

/-- A fresh controller state over the given buttons and panels. -/
def baseState (bs : List TabButton) (cs : List TabPanel) : TabsState :=
  { tabContainersCount := 1, tabButtons := bs, tabContents := cs,
    buttonsKind := CollectionKind.nodeList, activeTab := none,
    transitioning := false, urlHash := none, historyLength := 0, titleText := none }

/-- Two static tabs, the first active. -/
def sTwoTabs : TabsState :=
  baseState [mkButton "a" true, mkButton "b" false] [mkPanel "a" true, mkPanel "b" false]

/-- Same two tabs, with a switch in progress. -/
def sBusy : TabsState := { sTwoTabs with transitioning := true }

/-- A static active tab plus a remote tab whose content is not yet loaded. -/
def sFail : TabsState :=
  baseState [mkButton "home" true, mkButton "news" false]
    [mkPanel "home" true, mkRemotePanel "news" "u"]

/-- A trigger `b` whose target panel `#b` does not exist in the markup. -/
def sMissingPanel : TabsState :=
  baseState [mkButton "a" true, mkButton "b" false] [mkPanel "a" true]

/-- Three tabs A, B, C with B marked default-active in markup and no fragment. -/
def sABC : TabsState :=
  baseState [mkButton "A" false, mkButton "B" true, mkButton "C" false]
    [mkPanel "A" false, mkPanel "B" true, mkPanel "C" false]

/-- The same three tabs with address fragment `#C`. -/
def sABCHash : TabsState := { sABC with urlHash := some "C" }

/-- The remote panel used in the concurrency counterexample. -/
def remotePanel : TabPanel := mkRemotePanel "news" "u"

/-! List helper lemmas. -/

theorem firstIdx_some {α : Type} {p : α → Bool} :
    ∀ {l : List α} {i : Nat}, firstIdx p l = some i → ∃ a, l[i]? = some a ∧ p a = true := by
  intro l
  induction l with
  | nil => intro i h; simp [firstIdx] at h
  | cons a t ih =>
    intro i h
    by_cases hpa : p a
    · simp [firstIdx, hpa] at h
      exact ⟨a, by simp [← h], hpa⟩
    · simp [firstIdx, hpa] at h
      obtain ⟨j, hj, hji⟩ := h
      obtain ⟨x, hx, hpx⟩ := ih hj
      exact ⟨x, by simpa [← hji] using hx, hpx⟩

theorem firstIdx_none {α : Type} {p : α → Bool} :
    ∀ {l : List α}, firstIdx p l = none → ∀ a ∈ l, p a = false := by
  intro l
  induction l with
  | nil => intro _ a ha; simp at ha
  | cons b t ih =>
    intro h a ha
    by_cases hpb : p b
    · simp [firstIdx, hpb] at h
    · simp [firstIdx, hpb] at h
      rcases List.mem_cons.1 ha with rfl | hmem
      · simpa using hpb
      · exact ih h a hmem

theorem firstIdx_map {α β : Type} (f : α → β) (p : β → Bool) :
    ∀ (l : List α), firstIdx p (l.map f) = firstIdx (fun a => p (f a)) l := by
  intro l
  induction l with
  | nil => rfl
  | cons a t ih => by_cases hpa : p (f a) <;> simp [firstIdx, hpa, ih]

theorem getElem?_set_some {α : Type} {l : List α} {i : Nat} {c x : α} (h : l[i]? = some c) :
    (l.set i x)[i]? = some x := by
  rw [List.getElem?_set_self', h]
  rfl

theorem set_of_getElem?_eq {α : Type} :
    ∀ {l : List α} {i : Nat} {a : α}, l[i]? = some a → l.set i a = l := by
  intro l
  induction l with
  | nil => intro i a h; simp at h
  | cons b t ih =>
    intro i a h
    cases i with
    | zero =>
      simp only [List.getElem?_cons_zero, Option.some.injEq] at h
      simp [h]
    | succ j =>
      simp only [List.getElem?_cons_succ] at h
      simp [ih h]

theorem countP_set' {α : Type} (p : α → Bool) :
    ∀ (l : List α) (i : Nat) (c x : α), l[i]? = some c →
      (l.set i x).countP p + (if p c then 1 else 0)
        = l.countP p + (if p x then 1 else 0)
  | [], i, c, x, h => by simp at h
  | a :: t, 0, c, x, h => by
    simp only [List.getElem?_cons_zero, Option.some.injEq] at h
    subst h
    simp only [List.set_cons_zero, List.countP_cons]
    ring
  | a :: t, j + 1, c, x, h => by
    simp only [List.getElem?_cons_succ] at h
    have hih := countP_set' p t j c x h
    simp only [List.set_cons_succ, List.countP_cons]
    omega

theorem map_set_same {α β : Type} (f : α → β) (l : List α) (i : Nat) (x c : α)
    (h : l[i]? = some c) (hx : f x = f c) : (l.set i x).map f = l.map f := by
  rw [List.map_set, hx, set_of_getElem?_eq]
  simp [h]

theorem foldl_preserves {α β γ : Type} {f : α → β → α} {proj : α → γ}
    (h : ∀ a b, proj (f a b) = proj a) :
    ∀ (l : List β) (a : α), proj (l.foldl f a) = proj a := by
  intro l
  induction l with
  | nil => intro a; rfl
  | cons b t ih => intro a; rw [List.foldl_cons, ih, h]

/-! Per-operation preservation facts. -/

@[simp] theorem updateButtonAt_tabContents (s : TabsState) (i : Nat) (f : TabButton → TabButton) :
    (updateButtonAt s i f).tabContents = s.tabContents := by
  unfold updateButtonAt; cases s.tabButtons[i]? <;> rfl

@[simp] theorem updateButtonAt_transitioning (s : TabsState) (i : Nat) (f : TabButton → TabButton) :
    (updateButtonAt s i f).transitioning = s.transitioning := by
  unfold updateButtonAt; cases s.tabButtons[i]? <;> rfl

@[simp] theorem updateButtonAt_activeTab (s : TabsState) (i : Nat) (f : TabButton → TabButton) :
    (updateButtonAt s i f).activeTab = s.activeTab := by
  unfold updateButtonAt; cases s.tabButtons[i]? <;> rfl

@[simp] theorem updateButtonAt_urlHash (s : TabsState) (i : Nat) (f : TabButton → TabButton) :
    (updateButtonAt s i f).urlHash = s.urlHash := by
  unfold updateButtonAt; cases s.tabButtons[i]? <;> rfl

@[simp] theorem updateButtonAt_buttons_length (s : TabsState) (i : Nat) (f : TabButton → TabButton) :
    (updateButtonAt s i f).tabButtons.length = s.tabButtons.length := by
  unfold updateButtonAt; cases s.tabButtons[i]? <;> simp

@[simp] theorem updateContentAt_tabButtons (s : TabsState) (i : Nat) (f : TabPanel → TabPanel) :
    (updateContentAt s i f).tabButtons = s.tabButtons := by
  unfold updateContentAt; cases s.tabContents[i]? <;> rfl

@[simp] theorem updateContentAt_transitioning (s : TabsState) (i : Nat) (f : TabPanel → TabPanel) :
    (updateContentAt s i f).transitioning = s.transitioning := by
  unfold updateContentAt; cases s.tabContents[i]? <;> rfl

@[simp] theorem updateContentAt_activeTab (s : TabsState) (i : Nat) (f : TabPanel → TabPanel) :
    (updateContentAt s i f).activeTab = s.activeTab := by
  unfold updateContentAt; cases s.tabContents[i]? <;> rfl

@[simp] theorem updateContentAt_urlHash (s : TabsState) (i : Nat) (f : TabPanel → TabPanel) :
    (updateContentAt s i f).urlHash = s.urlHash := by
  unfold updateContentAt; cases s.tabContents[i]? <;> rfl

@[simp] theorem updateContentAt_contents_length (s : TabsState) (i : Nat) (f : TabPanel → TabPanel) :
    (updateContentAt s i f).tabContents.length = s.tabContents.length := by
  unfold updateContentAt; cases s.tabContents[i]? <;> simp

@[simp] theorem ptFadeOut_transitioning (s : TabsState) (c : Option Nat) :
    (ptFadeOut s c).transitioning = s.transitioning := by
  unfold ptFadeOut; cases c <;> simp

@[simp] theorem ptFadeIn_transitioning (s : TabsState) (c : Nat) :
    (ptFadeIn s c).transitioning = s.transitioning := by
  unfold ptFadeIn; simp

@[simp] theorem ptSwap_transitioning (s : TabsState) (cb cc : Option Nat) (nb nc : Nat) :
    (ptSwap s cb cc nb nc).transitioning = s.transitioning := by
  unfold ptSwap; cases cb <;> cases cc <;> simp

@[simp] theorem updateContentAt_buttons_length (s : TabsState) (i : Nat) (f : TabPanel → TabPanel) :
    (updateContentAt s i f).tabButtons.length = s.tabButtons.length := by
  simp

@[simp] theorem ptFadeOut_tabButtons (s : TabsState) (c : Option Nat) :
    (ptFadeOut s c).tabButtons = s.tabButtons := by
  unfold ptFadeOut; cases c <;> simp

@[simp] theorem ptFadeIn_tabButtons (s : TabsState) (c : Nat) :
    (ptFadeIn s c).tabButtons = s.tabButtons := by
  unfold ptFadeIn; simp

@[simp] theorem ptSwap_buttons_length (s : TabsState) (cb cc : Option Nat) (nb nc : Nat) :
    (ptSwap s cb cc nb nc).tabButtons.length = s.tabButtons.length := by
  unfold ptSwap; cases cb <;> cases cc <;> simp

@[simp] theorem updateTabTitleDisplay_tabButtons (s : TabsState) (b : TabButton) :
    (updateTabTitleDisplay s b).tabButtons = s.tabButtons := by
  unfold updateTabTitleDisplay; cases s.titleText <;> rfl

@[simp] theorem updateTabTitleDisplay_tabContents (s : TabsState) (b : TabButton) :
    (updateTabTitleDisplay s b).tabContents = s.tabContents := by
  unfold updateTabTitleDisplay; cases s.titleText <;> rfl

@[simp] theorem updateTabTitleDisplay_transitioning (s : TabsState) (b : TabButton) :
    (updateTabTitleDisplay s b).transitioning = s.transitioning := by
  unfold updateTabTitleDisplay; cases s.titleText <;> rfl

@[simp] theorem updateTabTitleDisplay_activeTab (s : TabsState) (b : TabButton) :
    (updateTabTitleDisplay s b).activeTab = s.activeTab := by
  unfold updateTabTitleDisplay; cases s.titleText <;> rfl

@[simp] theorem updateTabTitleDisplay_urlHash (s : TabsState) (b : TabButton) :
    (updateTabTitleDisplay s b).urlHash = s.urlHash := by
  unfold updateTabTitleDisplay; cases s.titleText <;> rfl

theorem applyAccessibilityStep_transitioning (s : TabsState) (i : Nat) :
    (applyAccessibilityStep s i).transitioning = s.transitioning := by
  unfold applyAccessibilityStep
  cases s.tabButtons[i]? with
  | none => rfl
  | some b =>
    simp only []
    split <;> simp

theorem applyAccessibilityStep_activeTab (s : TabsState) (i : Nat) :
    (applyAccessibilityStep s i).activeTab = s.activeTab := by
  unfold applyAccessibilityStep
  cases s.tabButtons[i]? with
  | none => rfl
  | some b =>
    simp only []
    split <;> simp

theorem applyAccessibilityStep_urlHash (s : TabsState) (i : Nat) :
    (applyAccessibilityStep s i).urlHash = s.urlHash := by
  unfold applyAccessibilityStep
  cases s.tabButtons[i]? with
  | none => rfl
  | some b =>
    simp only []
    split <;> simp

theorem applyAccessibilityStep_buttons_length (s : TabsState) (i : Nat) :
    (applyAccessibilityStep s i).tabButtons.length = s.tabButtons.length := by
  unfold applyAccessibilityStep
  cases s.tabButtons[i]? with
  | none => rfl
  | some b =>
    simp only []
    split <;> simp

@[simp] theorem updateTabAccessibility_transitioning (s : TabsState) :
    (updateTabAccessibility s).transitioning = s.transitioning := by
  unfold updateTabAccessibility
  exact @foldl_preserves TabsState Nat Bool applyAccessibilityStep (fun st => st.transitioning)
    applyAccessibilityStep_transitioning _ s

@[simp] theorem updateTabAccessibility_activeTab (s : TabsState) :
    (updateTabAccessibility s).activeTab = s.activeTab := by
  unfold updateTabAccessibility
  exact @foldl_preserves TabsState Nat (Option String) applyAccessibilityStep
    (fun st => st.activeTab) applyAccessibilityStep_activeTab _ s

@[simp] theorem updateTabAccessibility_urlHash (s : TabsState) :
    (updateTabAccessibility s).urlHash = s.urlHash := by
  unfold updateTabAccessibility
  exact @foldl_preserves TabsState Nat (Option String) applyAccessibilityStep
    (fun st => st.urlHash) applyAccessibilityStep_urlHash _ s

@[simp] theorem updateTabAccessibility_buttons_length (s : TabsState) :
    (updateTabAccessibility s).tabButtons.length = s.tabButtons.length := by
  unfold updateTabAccessibility
  exact @foldl_preserves TabsState Nat Nat applyAccessibilityStep
    (fun st => st.tabButtons.length) applyAccessibilityStep_buttons_length _ s

@[simp] theorem updateActiveStates_transitioning (s : TabsState) (bi ci : Nat) :
    (updateActiveStates s bi ci).transitioning = s.transitioning := by
  unfold updateActiveStates
  simp only [updateTabAccessibility_transitioning]
  split <;> simp

@[simp] theorem updateActiveStates_urlHash (s : TabsState) (bi ci : Nat) :
    (updateActiveStates s bi ci).urlHash = s.urlHash := by
  unfold updateActiveStates
  simp only [updateTabAccessibility_urlHash]
  split <;> simp

@[simp] theorem updateActiveStates_buttons_length (s : TabsState) (bi ci : Nat) :
    (updateActiveStates s bi ci).tabButtons.length = s.tabButtons.length := by
  unfold updateActiveStates
  simp only [updateTabAccessibility_buttons_length]
  split <;> simp

/-- preloadTabContent never touches the panel's active class. -/
theorem preloadTabContent_activeClass (fO : FetchOracle) (iO : ImgOracle) (el : TabPanel) :
    (preloadTabContent fO iO el).panel.activeClass = el.activeClass := by
  cases hd : preloadDecision el with
  | none => simp [preloadTabContent, preloadImages, hd]
  | some url =>
    cases hf : fO url with
    | ok r =>
      cases r with
      | mk h i => simp [preloadTabContent, preloadImages, hd, hf]
    | error e => simp [preloadTabContent, hd, hf]

/-! Branch characterizations of switchToTab. -/

theorem setTransitioning_false_eq (s : TabsState) (h : s.transitioning = false) :
    { s with transitioning := false } = s := by
  cases s
  simp_all

theorem switchToTab_busy (fO : FetchOracle) (iO : ImgOracle) (s : TabsState) (i : Nat)
    (h : s.transitioning = true) :
    switchToTab fO iO s i = ⟨s, [], SwitchResult.blocked, []⟩ := by
  unfold switchToTab
  cases s.tabButtons[i]? with
  | none => rfl
  | some b => simp [h]

theorem switchToTab_activeButton (fO : FetchOracle) (iO : ImgOracle) (s : TabsState) (i : Nat)
    (b : TabButton) (hb : s.tabButtons[i]? = some b) (ha : b.activeClass = true) :
    switchToTab fO iO s i = ⟨s, [], SwitchResult.blocked, []⟩ := by
  unfold switchToTab
  rw [hb]
  simp [ha]

theorem switchToTab_missing (fO : FetchOracle) (iO : ImgOracle) (s : TabsState) (i : Nat)
    (b : TabButton) (hb : s.tabButtons[i]? = some b) (ht : s.transitioning = false)
    (ha : b.activeClass = false) (hc : findContentIdx s b.dataTab = none) :
    switchToTab fO iO s i
      = ⟨s, [Effect.consoleWarn b.dataTab], SwitchResult.missingPanel, []⟩ := by
  have hfc : findContentWithIdx { s with transitioning := true } b.dataTab = none := by
    unfold findContentWithIdx
    have h2 : findContentIdx { s with transitioning := true } b.dataTab = none := hc
    simp only [h2]
  unfold switchToTab
  simp only [hb]
  rw [if_neg (by simp [ht, ha])]
  simp only [hfc]
  have hs : ({ { s with transitioning := true } with transitioning := false } : TabsState)
      = s := by
    cases s
    simp_all
  rw [hs]

/-- Under the validated hypotheses, switchToTab proceeds into switchAttempt. -/
theorem switchToTab_attempt_eq (fO : FetchOracle) (iO : ImgOracle) (s : TabsState) (i : Nat)
    (b : TabButton) (ci : Nat) (target : TabPanel)
    (hb : s.tabButtons[i]? = some b) (ht : s.transitioning = false)
    (ha : b.activeClass = false)
    (hc : findContentIdx s b.dataTab = some ci) (hcc : s.tabContents[ci]? = some target) :
    switchToTab fO iO s i
      = switchAttempt fO iO { s with transitioning := true } i ci b.dataTab target := by
  have hfc : findContentWithIdx { s with transitioning := true } b.dataTab
      = some (ci, target) := by
    unfold findContentWithIdx
    have h2 : findContentIdx { s with transitioning := true } b.dataTab = some ci := hc
    simp only [h2]
    have h3 : ({ s with transitioning := true } : TabsState).tabContents[ci]? = some target :=
      hcc
    simp only [h3]
  unfold switchToTab
  simp only [hb]
  rw [if_neg (by simp [ht, ha])]
  simp only [hfc]

/-- The state after the synchronous prefix of switchAttempt (history pushed,
loading class set): this is what a concurrent handler observes while the
preload fetch is in flight. -/
def switchPrelude (s1 : TabsState) (i : Nat) (targetTab : String) : TabsState :=
  updateButtonAt { s1 with urlHash := some targetTab, historyLength := s1.historyLength + 1 }
    i (fun b => { b with loadingClass := true })

/-- The state once the preload has resolved or rejected and its panel mutation
has been applied. -/
def switchLoadedState (fO : FetchOracle) (iO : ImgOracle) (s1 : TabsState) (i ci : Nat)
    (targetTab : String) (target : TabPanel) : TabsState :=
  updateContentAt (switchPrelude s1 i targetTab) ci
    (fun _ => (preloadTabContent fO iO target).panel)

/-- The state during the 300ms fade-out wait. -/
def switchFadeOutState (fO : FetchOracle) (iO : ImgOracle) (s1 : TabsState) (i ci : Nat)
    (targetTab : String) (target : TabPanel) : TabsState :=
  ptFadeOut (switchLoadedState fO iO s1 i ci targetTab target) (activeContentIdx s1)

/-- The state during the 50ms fade-in wait, after the class swap. -/
def switchSwapState (fO : FetchOracle) (iO : ImgOracle) (s1 : TabsState) (i ci : Nat)
    (targetTab : String) (target : TabPanel) : TabsState :=
  ptSwap (switchFadeOutState fO iO s1 i ci targetTab target) (activeButtonIdx s1)
    (activeContentIdx s1) i ci

/-- The state at the microtask boundary after the transition resolves. -/
def switchFadeInState (fO : FetchOracle) (iO : ImgOracle) (s1 : TabsState) (i ci : Nat)
    (targetTab : String) (target : TabPanel) : TabsState :=
  ptFadeIn (switchSwapState fO iO s1 i ci targetTab target) ci

/-- The state after the success continuation has committed the active states,
recorded activeTab and cleared the loading class. -/
def switchCommitState (fO : FetchOracle) (iO : ImgOracle) (s1 : TabsState) (i ci : Nat)
    (targetTab : String) (target : TabPanel) : TabsState :=
  updateButtonAt
    { updateActiveStates (switchFadeInState fO iO s1 i ci targetTab target) i ci with
      activeTab := some targetTab }
    i (fun b => { b with loadingClass := false })

theorem switchAttempt_failed (fO : FetchOracle) (iO : ImgOracle) (s1 : TabsState) (i ci : Nat)
    (targetTab : String) (target : TabPanel)
    (hthrew : (preloadTabContent fO iO target).threw = true) :
    switchAttempt fO iO s1 i ci targetTab target =
      { state :=
          { updateButtonAt (switchLoadedState fO iO s1 i ci targetTab target) i
              (fun b => { b with loadingClass := false }) with
            transitioning := false },
        effects := Effect.urlPush targetTab :: (preloadTabContent fO iO target).effects
          ++ [Effect.consoleError],
        result := SwitchResult.failed,
        suspended := [switchPrelude s1 i targetTab,
          switchLoadedState fO iO s1 i ci targetTab target] } := by
  unfold switchAttempt switchLoadedState switchPrelude
  simp [hthrew]

theorem switchAttempt_completed (fO : FetchOracle) (iO : ImgOracle) (s1 : TabsState)
    (i ci : Nat) (targetTab : String) (target : TabPanel)
    (hthrew : (preloadTabContent fO iO target).threw = false) :
    switchAttempt fO iO s1 i ci targetTab target =
      { state := { switchCommitState fO iO s1 i ci targetTab target with
          transitioning := false },
        effects := Effect.urlPush targetTab :: (preloadTabContent fO iO target).effects
          ++ [Effect.animationRun, Effect.tabChangeEvent targetTab],
        result := SwitchResult.completed,
        suspended := [switchPrelude s1 i targetTab,
          switchLoadedState fO iO s1 i ci targetTab target,
          switchFadeOutState fO iO s1 i ci targetTab target,
          switchSwapState fO iO s1 i ci targetTab target,
          switchFadeInState fO iO s1 i ci targetTab target] } := by
  unfold switchAttempt switchCommitState switchFadeInState switchSwapState
    switchFadeOutState switchLoadedState switchPrelude
  simp [hthrew]

@[simp] theorem switchPrelude_transitioning (s1 : TabsState) (i : Nat) (t : String) :
    (switchPrelude s1 i t).transitioning = s1.transitioning := by
  unfold switchPrelude; simp

@[simp] theorem switchLoadedState_transitioning (fO : FetchOracle) (iO : ImgOracle)
    (s1 : TabsState) (i ci : Nat) (t : String) (target : TabPanel) :
    (switchLoadedState fO iO s1 i ci t target).transitioning = s1.transitioning := by
  unfold switchLoadedState; simp

@[simp] theorem switchFadeOutState_transitioning (fO : FetchOracle) (iO : ImgOracle)
    (s1 : TabsState) (i ci : Nat) (t : String) (target : TabPanel) :
    (switchFadeOutState fO iO s1 i ci t target).transitioning = s1.transitioning := by
  unfold switchFadeOutState; simp

@[simp] theorem switchSwapState_transitioning (fO : FetchOracle) (iO : ImgOracle)
    (s1 : TabsState) (i ci : Nat) (t : String) (target : TabPanel) :
    (switchSwapState fO iO s1 i ci t target).transitioning = s1.transitioning := by
  unfold switchSwapState; simp

@[simp] theorem switchFadeInState_transitioning (fO : FetchOracle) (iO : ImgOracle)
    (s1 : TabsState) (i ci : Nat) (t : String) (target : TabPanel) :
    (switchFadeInState fO iO s1 i ci t target).transitioning = s1.transitioning := by
  unfold switchFadeInState; simp

@[simp] theorem switchCommitState_activeTab (fO : FetchOracle) (iO : ImgOracle)
    (s1 : TabsState) (i ci : Nat) (t : String) (target : TabPanel) :
    (switchCommitState fO iO s1 i ci t target).activeTab = some t := by
  unfold switchCommitState; simp

/-- Every state observable at a suspension point of a switchToTab call has the
transitioning flag set. -/
theorem switchToTab_suspended_transitioning (fO : FetchOracle) (iO : ImgOracle)
    (s : TabsState) (i : Nat) :
    ∀ s' ∈ (switchToTab fO iO s i).suspended, s'.transitioning = true := by
  intro s' hs'
  rcases hb : s.tabButtons[i]? with _ | b
  · unfold switchToTab at hs'
    rw [hb] at hs'
    simp at hs'
  · cases ht : s.transitioning with
    | true =>
      rw [switchToTab_busy fO iO s i ht] at hs'
      simp at hs'
    | false =>
      cases ha : b.activeClass with
      | true =>
        rw [switchToTab_activeButton fO iO s i b hb ha] at hs'
        simp at hs'
      | false =>
        rcases hc : findContentIdx s b.dataTab with _ | ci
        · rw [switchToTab_missing fO iO s i b hb ht ha hc] at hs'
          simp at hs'
        · rcases hcc : s.tabContents[ci]? with _ | target
          · exfalso
            have hc2 := hc
            simp only [findContentIdx] at hc2
            obtain ⟨c, hcx, _⟩ := firstIdx_some hc2
            rw [hcx] at hcc
            cases hcc
          · rw [switchToTab_attempt_eq fO iO s i b ci target hb ht ha hc hcc] at hs'
            cases hth : (preloadTabContent fO iO target).threw with
            | true =>
              rw [switchAttempt_failed fO iO _ i ci b.dataTab target hth] at hs'
              simp at hs'
              rcases hs' with rfl | rfl <;> simp
            | false =>
              rw [switchAttempt_completed fO iO _ i ci b.dataTab target hth] at hs'
              simp at hs'
              rcases hs' with rfl | rfl | rfl | rfl | rfl <;> simp

theorem updateButtonAt_loading_false (s : TabsState) (i : Nat) (b' : TabButton)
    (h : (updateButtonAt s i (fun bb => { bb with loadingClass := false })).tabButtons[i]?
        = some b') :
    b'.loadingClass = false := by
  unfold updateButtonAt at h
  rcases hx : s.tabButtons[i]? with _ | x
  · rw [hx] at h
    simp at h
    rw [hx] at h
    exact Option.noConfusion h
  · rw [hx] at h
    simp at h
    rw [getElem?_set_some hx] at h
    injection h with h2
    subst h2
    rfl

theorem updateContentAt_getElem (s : TabsState) (ci : Nat) (f : TabPanel → TabPanel)
    (c : TabPanel) (h : s.tabContents[ci]? = some c) :
    (updateContentAt s ci f).tabContents[ci]? = some (f c) := by
  unfold updateContentAt
  simp only [h]
  exact getElem?_set_some h

theorem updateContentAt_tabContents_eq (s : TabsState) (ci : Nat) (f : TabPanel → TabPanel)
    (c : TabPanel) (h : s.tabContents[ci]? = some c) :
    (updateContentAt s ci f).tabContents = s.tabContents.set ci (f c) := by
  unfold updateContentAt
  simp only [h]

theorem updateButtonAt_map_activeClass (s : TabsState) (i : Nat) (f : TabButton → TabButton)
    (hf : ∀ bb, (f bb).activeClass = bb.activeClass) :
    (updateButtonAt s i f).tabButtons.map (fun bb => bb.activeClass)
      = s.tabButtons.map (fun bb => bb.activeClass) := by
  unfold updateButtonAt
  rcases hx : s.tabButtons[i]? with _ | x
  · rfl
  · simp only []
    exact map_set_same _ _ _ _ _ hx (hf x)

/-! Claim C1. -/

/-- C1: a second requestSwitch while a switch is in progress is dropped.  While
the transitioning flag is set, switchToTab is a pure no-op (state unchanged, no
fetch, no animation, no URL write, no notification); the flag is set at every
state observable during an in-progress switch, so a request arriving at any
suspension point of the first call leaves that state untouched and the first
call completes exactly as if it were alone; a completed switch ends with the
first request's target as the active tab. -/
theorem c1_busy_second_request_noop :
    (∀ (fO : FetchOracle) (iO : ImgOracle) (s : TabsState) (i : Nat),
        s.transitioning = true →
        switchToTab fO iO s i = ⟨s, [], SwitchResult.blocked, []⟩) ∧
    (∀ (fO fO2 : FetchOracle) (iO iO2 : ImgOracle) (s : TabsState) (i j : Nat),
        ∀ s' ∈ (switchToTab fO iO s i).suspended,
          switchToTab fO2 iO2 s' j = ⟨s', [], SwitchResult.blocked, []⟩) ∧
    (∀ (fO : FetchOracle) (iO : ImgOracle) (s : TabsState) (i : Nat) (b : TabButton),
        s.tabButtons[i]? = some b →
        (switchToTab fO iO s i).result = SwitchResult.completed →
        (switchToTab fO iO s i).state.activeTab = some b.dataTab) := by
  refine ⟨switchToTab_busy, ?_, ?_⟩
  · intro fO fO2 iO iO2 s i j s' hs'
    exact switchToTab_busy fO2 iO2 s' j (switchToTab_suspended_transitioning fO iO s i s' hs')
  · intro fO iO s i b hb hres
    cases ht : s.transitioning with
    | true => rw [switchToTab_busy fO iO s i ht] at hres; cases hres
    | false =>
      cases ha : b.activeClass with
      | true => rw [switchToTab_activeButton fO iO s i b hb ha] at hres; cases hres
      | false =>
        rcases hc : findContentIdx s b.dataTab with _ | ci
        · rw [switchToTab_missing fO iO s i b hb ht ha hc] at hres; cases hres
        · rcases hcc : s.tabContents[ci]? with _ | target
          · exfalso
            have hc2 := hc
            simp only [findContentIdx] at hc2
            obtain ⟨c, hcx, _⟩ := firstIdx_some hc2
            rw [hcx] at hcc
            cases hcc
          · rw [switchToTab_attempt_eq fO iO s i b ci target hb ht ha hc hcc] at hres ⊢
            cases hth : (preloadTabContent fO iO target).threw with
            | true =>
              rw [switchAttempt_failed fO iO _ i ci b.dataTab target hth] at hres
              cases hres
            | false =>
              rw [switchAttempt_completed fO iO _ i ci b.dataTab target hth]
              simp

/-- A concrete state midway through a switch of sTwoTabs to tab b: history
pushed and loading class set, fetch still in flight. -/
def sMidSwitch : TabsState :=
  switchPrelude { sTwoTabs with transitioning := true } 1 "b"

theorem c1_witness :
    switchToTab okOracle allImgsOk sBusy 1 = ⟨sBusy, [], SwitchResult.blocked, []⟩ ∧
    switchToTab failOracle allImgsOk sMidSwitch 0 = ⟨sMidSwitch, [], SwitchResult.blocked, []⟩ ∧
    (switchToTab okOracle allImgsOk sTwoTabs 1).state.activeTab = some "b" :=
  ⟨c1_busy_second_request_noop.1 okOracle allImgsOk sBusy 1 rfl,
   c1_busy_second_request_noop.2.1 okOracle failOracle allImgsOk allImgsOk sTwoTabs 1 0
     sMidSwitch (by decide),
   c1_busy_second_request_noop.2.2 okOracle allImgsOk sTwoTabs 1 (mkButton "b" false)
     (by decide) (by decide)⟩

/-! Claim C3. -/

/-- C3: in an Idle state, requesting a switch to the tab whose trigger already
carries the active class is a pure no-op: the returned state is exactly the
input state, the effect trace is empty (no fetch, no animation, no URL write,
no notification), and the call returns without error. -/
theorem c3_switch_to_active_tab_noop :
    ∀ (fO : FetchOracle) (iO : ImgOracle) (s : TabsState) (i : Nat) (b : TabButton),
      s.transitioning = false → s.tabButtons[i]? = some b → b.activeClass = true →
      switchToTab fO iO s i = ⟨s, [], SwitchResult.blocked, []⟩ :=
  fun fO iO s i b _ hb ha => switchToTab_activeButton fO iO s i b hb ha

theorem c3_witness :
    switchToTab okOracle allImgsOk sTwoTabs 0 = ⟨sTwoTabs, [], SwitchResult.blocked, []⟩ :=
  c3_switch_to_active_tab_noop okOracle allImgsOk sTwoTabs 0 (mkButton "a" true)
    (by decide) (by decide) (by decide)

/-! Claim C10. -/

/-- C10: every switchToTab invocation that passes the entry guard — whether it
takes the missing-panel early return, the load-failure path or the success
path — ends with the transitioning flag cleared and without the loading class
on the target button: the controller cannot remain Busy after one switch
attempt settles. -/
theorem c10_switch_always_settles_idle :
    ∀ (fO : FetchOracle) (iO : ImgOracle) (s : TabsState) (i : Nat) (b : TabButton),
      s.tabButtons[i]? = some b → s.transitioning = false → b.activeClass = false →
      b.loadingClass = false →
      (switchToTab fO iO s i).state.transitioning = false ∧
      ∀ b', (switchToTab fO iO s i).state.tabButtons[i]? = some b' →
        b'.loadingClass = false := by
  intro fO iO s i b hb ht ha hl
  rcases hc : findContentIdx s b.dataTab with _ | ci
  · rw [switchToTab_missing fO iO s i b hb ht ha hc]
    refine ⟨ht, fun b' h => ?_⟩
    rw [hb] at h
    injection h with h2
    subst h2
    exact hl
  · rcases hcc : s.tabContents[ci]? with _ | target
    · exfalso
      have hc2 := hc
      simp only [findContentIdx] at hc2
      obtain ⟨c, hcx, _⟩ := firstIdx_some hc2
      rw [hcx] at hcc
      cases hcc
    · rw [switchToTab_attempt_eq fO iO s i b ci target hb ht ha hc hcc]
      cases hth : (preloadTabContent fO iO target).threw with
      | true =>
        rw [switchAttempt_failed fO iO _ i ci b.dataTab target hth]
        refine ⟨rfl, fun b' h => ?_⟩
        simp only [] at h
        exact updateButtonAt_loading_false _ i b' h
      | false =>
        rw [switchAttempt_completed fO iO _ i ci b.dataTab target hth]
        refine ⟨rfl, fun b' h => ?_⟩
        simp only [] at h
        unfold switchCommitState at h
        exact updateButtonAt_loading_false _ i b' h

theorem c10_witness :
    (switchToTab okOracle allImgsOk sTwoTabs 1).state.transitioning = false :=
  (c10_switch_always_settles_idle okOracle allImgsOk sTwoTabs 1 (mkButton "b" false)
    (by decide) (by decide) (by decide) (by decide)).1

/-! Claim C8. -/

/-- C8 counterexample: with trigger `b` whose panel `#b` does not exist in the
markup, startup (the constructor's init) reports nothing and keeps `b` in the
registry; a later switch request to `b` then encounters the missing panel and
the configuration error is first detected (and warned about) at switch time —
refuting "reported once at startup, tab excluded, never detected at switch
time". -/
theorem c8_counterexample :
    (initTabs okOracle allImgsOk sMissingPanel).2 = [] ∧
    (initTabs okOracle allImgsOk sMissingPanel).1.tabButtons.map (fun bb => bb.dataTab)
      = ["a", "b"] ∧
    (switchToTab okOracle allImgsOk (initTabs okOracle allImgsOk sMissingPanel).1 1).result
      = SwitchResult.missingPanel ∧
    (switchToTab okOracle allImgsOk (initTabs okOracle allImgsOk sMissingPanel).1 1).effects
      = [Effect.consoleWarn "b"] := by
  decide

/-- C8 (amended): a trigger referencing a nonexistent panel is not validated or
excluded at startup; instead every switch request to it is rejected at switch
time: switchToTab warns on the console and aborts with the observable state
exactly unchanged (transitioning reset, no URL write, no loading class). -/
theorem c8_amended_missing_panel_detected_at_switch :
    ∀ (fO : FetchOracle) (iO : ImgOracle) (s : TabsState) (i : Nat) (b : TabButton),
      s.tabButtons[i]? = some b → s.transitioning = false → b.activeClass = false →
      findContentIdx s b.dataTab = none →
      switchToTab fO iO s i
        = ⟨s, [Effect.consoleWarn b.dataTab], SwitchResult.missingPanel, []⟩ :=
  fun fO iO s i b hb ht ha hc => switchToTab_missing fO iO s i b hb ht ha hc

theorem c8_amended_witness :
    switchToTab okOracle allImgsOk sMissingPanel 1
      = ⟨sMissingPanel, [Effect.consoleWarn "b"], SwitchResult.missingPanel, []⟩ :=
  c8_amended_missing_panel_detected_at_switch okOracle allImgsOk sMissingPanel 1
    (mkButton "b" false) (by decide) (by decide) (by decide) (by decide)

/-! Claim C2. -/

@[simp] theorem switchPrelude_tabContents (s1 : TabsState) (i : Nat) (t : String) :
    (switchPrelude s1 i t).tabContents = s1.tabContents := by
  unfold switchPrelude; simp

@[simp] theorem switchPrelude_activeTab (s1 : TabsState) (i : Nat) (t : String) :
    (switchPrelude s1 i t).activeTab = s1.activeTab := by
  unfold switchPrelude; simp

@[simp] theorem switchPrelude_urlHash (s1 : TabsState) (i : Nat) (t : String) :
    (switchPrelude s1 i t).urlHash = some t := by
  unfold switchPrelude; simp

@[simp] theorem switchLoadedState_activeTab (fO : FetchOracle) (iO : ImgOracle)
    (s1 : TabsState) (i ci : Nat) (t : String) (target : TabPanel) :
    (switchLoadedState fO iO s1 i ci t target).activeTab = s1.activeTab := by
  unfold switchLoadedState; simp

@[simp] theorem switchLoadedState_urlHash (fO : FetchOracle) (iO : ImgOracle)
    (s1 : TabsState) (i ci : Nat) (t : String) (target : TabPanel) :
    (switchLoadedState fO iO s1 i ci t target).urlHash = some t := by
  unfold switchLoadedState; simp

@[simp] theorem switchLoadedState_tabButtons (fO : FetchOracle) (iO : ImgOracle)
    (s1 : TabsState) (i ci : Nat) (t : String) (target : TabPanel) :
    (switchLoadedState fO iO s1 i ci t target).tabButtons
      = (switchPrelude s1 i t).tabButtons := by
  unfold switchLoadedState; simp

theorem preloadTabContent_error (fO : FetchOracle) (iO : ImgOracle) (el : TabPanel)
    (url msg : String) (hd : preloadDecision el = some url)
    (hf : fO url = Except.error msg) :
    preloadTabContent fO iO el =
      { panel := { el with innerHTML := tabErrorHtml, imgDataSrcs := [], imgSrcs := [] },
        effects := [Effect.fetch url], threw := true } := by
  unfold preloadTabContent
  simp only [hd, hf]

/-- C2 (amended): when the content load fails, the retry affordance is rendered
in the target panel, activeTab is unchanged, the controller returns to Idle,
and no activation of the target, no animation and no tab-changed notification
occurs — however the address-bar fragment has already been pushed to the target
id before the load began (and stays there after the failure), and the load
error is caught and logged inside switchToTab rather than surfaced to the
caller. -/
theorem c2_amended_failed_switch :
    ∀ (fO : FetchOracle) (iO : ImgOracle) (s : TabsState) (i : Nat) (b : TabButton)
      (ci : Nat) (target : TabPanel) (url msg : String),
      s.tabButtons[i]? = some b → s.transitioning = false → b.activeClass = false →
      findContentIdx s b.dataTab = some ci → s.tabContents[ci]? = some target →
      preloadDecision target = some url → fO url = Except.error msg →
      (switchToTab fO iO s i).result = SwitchResult.failed ∧
      (switchToTab fO iO s i).state.activeTab = s.activeTab ∧
      (switchToTab fO iO s i).state.transitioning = false ∧
      (switchToTab fO iO s i).state.urlHash = some b.dataTab ∧
      (switchToTab fO iO s i).effects
        = [Effect.urlPush b.dataTab, Effect.fetch url, Effect.consoleError] ∧
      (switchToTab fO iO s i).state.tabContents[ci]?
        = some { target with innerHTML := tabErrorHtml, imgDataSrcs := [], imgSrcs := [] } ∧
      (switchToTab fO iO s i).state.tabContents.map (fun c => c.activeClass)
        = s.tabContents.map (fun c => c.activeClass) ∧
      (switchToTab fO iO s i).state.tabButtons.map (fun bb => bb.activeClass)
        = s.tabButtons.map (fun bb => bb.activeClass) := by
  intro fO iO s i b ci target url msg hb ht ha hc hcc hd hf
  have hpre := preloadTabContent_error fO iO target url msg hd hf
  have hthrew : (preloadTabContent fO iO target).threw = true := by rw [hpre]
  rw [switchToTab_attempt_eq fO iO s i b ci target hb ht ha hc hcc,
      switchAttempt_failed fO iO _ i ci b.dataTab target hthrew]
  have hX : (switchPrelude { s with transitioning := true } i b.dataTab).tabContents[ci]?
      = some target := by
    rw [switchPrelude_tabContents]
    exact hcc
  refine ⟨rfl, ?_, rfl, ?_, ?_, ?_, ?_, ?_⟩
  · simp
  · simp
  · simp [hpre]
  · simp only []
    rw [updateButtonAt_tabContents]
    unfold switchLoadedState
    rw [updateContentAt_getElem _ ci _ target hX, hpre]
  · simp only []
    rw [updateButtonAt_tabContents]
    unfold switchLoadedState
    rw [updateContentAt_tabContents_eq _ ci _ target hX, hpre]
    rw [switchPrelude_tabContents]
    exact map_set_same _ _ ci _ target hcc rfl
  · simp only []
    rw [updateButtonAt_map_activeClass _ i (fun bb => { bb with loadingClass := false })
      (fun _ => rfl), switchLoadedState_tabButtons]
    unfold switchPrelude
    rw [updateButtonAt_map_activeClass _ i (fun bb => { bb with loadingClass := true })
      (fun _ => rfl)]

/-- C2 counterexample: for sFail (static tab home active, remote tab news whose
fetch fails), the failed switch to news leaves the address fragment set to
news — the fragment was pushed before the load started — refuting "the
address-bar fragment is not modified by the failed switch"; the error shows up
only as a console log in the trace, not as a rejection surfaced to the caller. -/
theorem c2_counterexample :
    (switchToTab failOracle allImgsOk sFail 1).result = SwitchResult.failed ∧
    sFail.urlHash = none ∧
    (switchToTab failOracle allImgsOk sFail 1).state.urlHash = some "news" ∧
    (switchToTab failOracle allImgsOk sFail 1).effects
      = [Effect.urlPush "news", Effect.fetch "u", Effect.consoleError] := by
  decide

theorem c2_amended_witness :
    (switchToTab failOracle allImgsOk sFail 1).state.urlHash = some "news" ∧
    (switchToTab failOracle allImgsOk sFail 1).state.tabContents[1]?
      = some { mkRemotePanel "news" "u" with
          innerHTML := tabErrorHtml, imgDataSrcs := [], imgSrcs := [] } := by
  have h := c2_amended_failed_switch failOracle allImgsOk sFail 1 (mkButton "news" false) 1
    (mkRemotePanel "news" "u") "u" "network" (by decide) (by decide) (by decide)
    (by decide) (by decide) (by decide) rfl
  exact ⟨h.2.2.2.1, h.2.2.2.2.2.1⟩

/-! Claim C9. -/

/-- C9: the constructor collects tabButtons with querySelectorAll, so the
collection is a NodeList, which has no filter method; removeTab of the
currently active tab reaches the replacement-selection branch, whose
tabButtons.filter call throws a TypeError before any element is removed, while
removeTab of a non-active tab never takes that branch and completes the
removal. -/
theorem c9_removeTab_active_throws :
    ∀ (fO : FetchOracle) (iO : ImgOracle) (s : TabsState) (tabId : String)
      (bi ci : Nat) (b : TabButton),
      s.buttonsKind = CollectionKind.nodeList →
      2 ≤ s.tabButtons.length →
      findButtonIdx s tabId = some bi → s.tabButtons[bi]? = some b →
      findContentIdx s tabId = some ci →
      (b.activeClass = true → removeTab fO iO s tabId = Except.error JSError.typeError) ∧
      (b.activeClass = false →
        removeTab fO iO s tabId = Except.ok (removeTabElements s bi ci, [])) := by
  intro fO iO s tabId bi ci b hk _ hfb hb hfc
  constructor
  · intro ha
    unfold removeTab
    simp only [hfb, hfc, hb, ha, hk]
    simp [collectionFilter]
  · intro ha
    unfold removeTab
    simp only [hfb, hfc, hb, ha]
    simp

theorem c9_witness :
    removeTab okOracle allImgsOk sTwoTabs "a" = Except.error JSError.typeError ∧
    removeTab okOracle allImgsOk sTwoTabs "b"
      = Except.ok (removeTabElements sTwoTabs 1 1, []) := by
  have h1 := c9_removeTab_active_throws okOracle allImgsOk sTwoTabs "a" 0 0
    (mkButton "a" true) rfl (by decide) (by decide) (by decide) (by decide)
  have h2 := c9_removeTab_active_throws okOracle allImgsOk sTwoTabs "b" 1 1
    (mkButton "b" false) rfl (by decide) (by decide) (by decide) (by decide)
  exact ⟨h1.1 rfl, h2.2 rfl⟩

/-! Claim C4. -/

theorem preloadTabContent_fetch_count (fO : FetchOracle) (iO : ImgOracle) (el : TabPanel) :
    countFetches (preloadTabContent fO iO el).effects
      = (preloadDecision el).toList.length := by
  rcases hd : preloadDecision el with _ | url
  · unfold preloadTabContent
    simp only [hd]
    simp [preloadImages, countFetches, List.countP_map, Function.comp]
  · unfold preloadTabContent
    simp only [hd]
    cases hf : fO url with
    | error e => simp [countFetches]
    | ok r =>
      obtain ⟨html, imgs⟩ := r
      simp [preloadImages, countFetches, List.countP_append, List.countP_map, Function.comp]

theorem preloadTabContent_decision_preserved (fO : FetchOracle) (iO : ImgOracle)
    (el : TabPanel) (hd : preloadDecision el = none) :
    preloadDecision (preloadTabContent fO iO el).panel = none := by
  unfold preloadTabContent
  simp only [hd]
  simpa [preloadImages, preloadDecision] using hd

theorem iteratePreload_none (fO : FetchOracle) (iO : ImgOracle) :
    ∀ (n : Nat) (el : TabPanel), preloadDecision el = none →
      (iteratePreload fO iO n el).2 = 0
  | 0, el, _ => rfl
  | n + 1, el, hd => by
    have h1 : countFetches (preloadTabContent fO iO el).effects = 0 := by
      rw [preloadTabContent_fetch_count, hd]
      rfl
    have h2 := iteratePreload_none fO iO n (preloadTabContent fO iO el).panel
      (preloadTabContent_decision_preserved fO iO el hd)
    unfold iteratePreload
    simp [h1, h2]

/-- C4 (amended): a single ensureLoaded call issues at most one fetch; once a
tab's content is marked loaded no call fetches again, and across any number of
sequential activations with succeeding fetches at most one fetch total is
issued.  But ensureLoaded has no in-flight guard: as the counterexample shows,
two concurrent calls overlapping before the first fetch resolves each issue
their own fetch, instead of the second awaiting the first. -/
theorem c4_amended_sequential_at_most_one_fetch :
    (∀ (fO : FetchOracle) (iO : ImgOracle) (el : TabPanel),
        countFetches (preloadTabContent fO iO el).effects ≤ 1) ∧
    (∀ (fO : FetchOracle) (iO : ImgOracle) (el : TabPanel),
        el.dataLoaded = true → countFetches (preloadTabContent fO iO el).effects = 0) ∧
    (∀ (fO : FetchOracle) (iO : ImgOracle) (n : Nat) (el : TabPanel),
        (∀ url, ∃ html imgs, fO url = Except.ok (html, imgs)) →
        (iteratePreload fO iO n el).2 ≤ 1) := by
  refine ⟨?_, ?_, ?_⟩
  · intro fO iO el
    rw [preloadTabContent_fetch_count]
    cases preloadDecision el <;> simp
  · intro fO iO el hdl
    rw [preloadTabContent_fetch_count]
    simp [preloadDecision, hdl]
  · intro fO iO n el hok
    cases n with
    | zero => simp [iteratePreload]
    | succ m =>
      rcases hd : preloadDecision el with _ | url
      · rw [iteratePreload_none fO iO (m + 1) el hd]
        simp
      · obtain ⟨html, imgs, hf⟩ := hok url
        have hcnt : countFetches (preloadTabContent fO iO el).effects = 1 := by
          rw [preloadTabContent_fetch_count, hd]
          rfl
        have hpanel : preloadTabContent fO iO el
            = preloadImages iO
                { el with
                  innerHTML := html, imgDataSrcs := imgs, imgSrcs := [], dataLoaded := true }
                [Effect.fetch url] := by
          unfold preloadTabContent
          simp only [hd, hf]
        have hdec : preloadDecision (preloadTabContent fO iO el).panel = none := by
          rw [hpanel]
          simp [preloadImages, preloadDecision]
        have hrest := iteratePreload_none fO iO m (preloadTabContent fO iO el).panel hdec
        unfold iteratePreload
        simp [hcnt, hrest]

/-- C4 counterexample: remotePanel holds remote content with loadState
NotLoaded (not Failed), yet when two ensureLoaded calls overlap — both
synchronous shouldLoad decisions running before the first fetch resolves and
writes the data-loaded marker — two fetches of the same url are issued: the
second concurrent call does not attach to the in-flight fetch. -/
theorem c4_counterexample :
    interleavedPreloadFetches remotePanel = [Effect.fetch "u", Effect.fetch "u"] ∧
    remotePanel.dataLoaded = false ∧ remotePanel.dataLoad = true := by
  decide

theorem c4_amended_witness :
    (iteratePreload okOracle allImgsOk 5 remotePanel).2 ≤ 1 :=
  c4_amended_sequential_at_most_one_fetch.2.2 okOracle allImgsOk 5 remotePanel
    (fun _ => ⟨"<p>ok</p>", [], rfl⟩)

/-! Claim C5. -/

/-- C5: at startup the initial active tab is resolved in the order address
fragment (when it names a known tab) → tab marked active in markup → first tab
in registry order; concretely, with tabs A,B,C where B is marked
default-active and no fragment is present, the resolution keeps B as the
unique DOM-active tab (the switch to B is the idempotent no-op), and with
fragment #C the initial active tab becomes C regardless of the markup
default. -/
theorem c5_initial_tab_resolution_order :
    (∀ (fO : FetchOracle) (iO : ImgOracle) (s : TabsState) (h : String) (i : Nat),
        s.urlHash = some h → findButtonIdx s h = some i →
        setInitialActiveTab fO iO s = switchToTab fO iO s i) ∧
    (∀ (fO : FetchOracle) (iO : ImgOracle) (s : TabsState) (i : Nat),
        (s.urlHash = none ∨ ∃ h, s.urlHash = some h ∧ findButtonIdx s h = none) →
        firstIdx (fun b => b.activeClass) s.tabButtons = some i →
        setInitialActiveTab fO iO s = switchToTab fO iO s i) ∧
    (∀ (fO : FetchOracle) (iO : ImgOracle) (s : TabsState),
        (s.urlHash = none ∨ ∃ h, s.urlHash = some h ∧ findButtonIdx s h = none) →
        firstIdx (fun b => b.activeClass) s.tabButtons = none →
        s.tabButtons ≠ [] →
        setInitialActiveTab fO iO s = switchToTab fO iO s 0) ∧
    ((setInitialActiveTab okOracle allImgsOk sABC).state = sABC ∧
      sABC.tabButtons.map (fun b => (b.dataTab, b.activeClass))
        = [("A", false), ("B", true), ("C", false)]) ∧
    ((setInitialActiveTab okOracle allImgsOk sABCHash).state.activeTab = some "C" ∧
      (setInitialActiveTab okOracle allImgsOk sABCHash).state.tabButtons.map
          (fun b => (b.dataTab, b.activeClass))
        = [("A", false), ("B", false), ("C", true)]) := by
  refine ⟨?_, ?_, ?_, ?_, ?_⟩
  · intro fO iO s h i hh hfb
    unfold setInitialActiveTab
    simp only [hh, hfb]
  · intro fO iO s i hh hfa
    unfold setInitialActiveTab setInitialFromMarkup
    rcases hh with hnone | ⟨h, hsome, hnb⟩
    · simp only [hnone, hfa]
    · simp only [hsome, hnb, hfa]
  · intro fO iO s hh hfa hne
    unfold setInitialActiveTab setInitialFromMarkup
    rcases hbs : s.tabButtons with _ | ⟨b0, rest⟩
    · exact absurd hbs hne
    · rw [hbs] at hfa
      rcases hh with hnone | ⟨h, hsome, hnb⟩
      · simp only [hnone, hfa]
      · simp only [hsome, hnb, hfa]
  · exact ⟨by decide, by decide⟩
  · exact ⟨by decide, by decide⟩

theorem c5_witness :
    setInitialActiveTab okOracle allImgsOk sABCHash
      = switchToTab okOracle allImgsOk sABCHash 2 ∧
    setInitialActiveTab okOracle allImgsOk sABC = switchToTab okOracle allImgsOk sABC 1 :=
  ⟨c5_initial_tab_resolution_order.1 okOracle allImgsOk sABCHash "C" 2 rfl (by decide),
   c5_initial_tab_resolution_order.2.1 okOracle allImgsOk sABC 1 (Or.inl rfl) (by decide)⟩

/-! Claim C7. -/

/-- Number of panels currently carrying the active class. -/
def panelActiveCount (s : TabsState) : Nat :=
  s.tabContents.countP (fun c => c.activeClass)

/-- A sequence of requestSwitch calls, observed at the Idle points between
calls. -/
def runRequests (fO : FetchOracle) (iO : ImgOracle) (reqs : List Nat) (s : TabsState) :
    TabsState :=
  reqs.foldl (fun st i => (switchToTab fO iO st i).state) s

theorem panelActiveCount_buttons (s : TabsState) (i : Nat) (f : TabButton → TabButton) :
    panelActiveCount (updateButtonAt s i f) = panelActiveCount s := by
  unfold panelActiveCount
  rw [updateButtonAt_tabContents]

theorem updateContentAt_map_activeClass (s : TabsState) (ci : Nat) (f : TabPanel → TabPanel)
    (hf : ∀ c, s.tabContents[ci]? = some c → (f c).activeClass = c.activeClass) :
    (updateContentAt s ci f).tabContents.map (fun c => c.activeClass)
      = s.tabContents.map (fun c => c.activeClass) := by
  unfold updateContentAt
  rcases hx : s.tabContents[ci]? with _ | x
  · rfl
  · exact map_set_same _ _ _ _ _ hx (hf x hx)

theorem updateContentAt_count_le (s : TabsState) (ci : Nat) (f : TabPanel → TabPanel) :
    panelActiveCount (updateContentAt s ci f) ≤ panelActiveCount s + 1 := by
  unfold updateContentAt panelActiveCount
  rcases hx : s.tabContents[ci]? with _ | x
  · simp only []
    omega
  · simp only []
    have hset := countP_set' (fun c => c.activeClass) s.tabContents ci x (f x) hx
    by_cases hx1 : x.activeClass <;> by_cases hx2 : (f x).activeClass <;>
      simp [hx1, hx2] at hset <;> omega

theorem panelActiveCount_congr (s s' : TabsState)
    (h : s.tabContents.map (fun c => c.activeClass)
        = s'.tabContents.map (fun c => c.activeClass)) :
    panelActiveCount s = panelActiveCount s' := by
  unfold panelActiveCount
  have h1 : ∀ (l : List TabPanel), l.countP (fun c => c.activeClass)
      = (l.map (fun c => c.activeClass)).countP (fun x => x) := by
    intro l
    rw [List.countP_map]
    rfl
  rw [h1 s.tabContents, h1 s'.tabContents, h]

theorem updateContentAt_clear_count (s : TabsState) (k : Nat) (c : TabPanel)
    (hk : s.tabContents[k]? = some c) (hc : c.activeClass = true)
    (h1 : panelActiveCount s ≤ 1) :
    panelActiveCount (updateContentAt s k (fun cc => { cc with activeClass := false })) = 0 := by
  have heq := updateContentAt_tabContents_eq s k
    (fun cc => { cc with activeClass := false }) c hk
  unfold panelActiveCount at h1 ⊢
  rw [heq]
  simp only []
  have h2 := countP_set' (fun cc => cc.activeClass) s.tabContents k c
    { c with activeClass := false } hk
  simp [hc] at h2
  omega

theorem set_active_after (sx : TabsState) (nb nc : Nat) (h0 : panelActiveCount sx = 0) :
    panelActiveCount
      (updateContentAt (updateButtonAt sx nb (fun b => { b with activeClass := true })) nc
        (fun c => { c with activeClass := true })) ≤ 1 := by
  have hb : panelActiveCount (updateButtonAt sx nb (fun b => { b with activeClass := true }))
      = panelActiveCount sx := panelActiveCount_buttons sx nb _
  have hc := updateContentAt_count_le
    (updateButtonAt sx nb (fun b => { b with activeClass := true })) nc
    (fun c => { c with activeClass := true })
  omega

theorem ptSwap_panelActiveCount_le (s : TabsState) (curBi : Option Nat) (nb nc : Nat)
    (h1 : panelActiveCount s ≤ 1) :
    panelActiveCount (ptSwap s curBi (activeContentIdx s) nb nc) ≤ 1 := by
  rcases hci : activeContentIdx s with _ | k
  · have h0 : panelActiveCount s = 0 := by
      unfold panelActiveCount
      rw [List.countP_eq_zero]
      intro a ha
      have hfa := firstIdx_none
        (show firstIdx (fun c => c.activeClass) s.tabContents = none from hci) a ha
      simp [hfa]
    rcases curBi with _ | j
    · unfold ptSwap
      simp only []
      exact set_active_after s nb nc h0
    · unfold ptSwap
      simp only []
      refine set_active_after _ nb nc ?_
      rw [panelActiveCount_buttons]
      exact h0
  · obtain ⟨c, hkc, hca⟩ := firstIdx_some
      (show firstIdx (fun c => c.activeClass) s.tabContents = some k from hci)
    rcases curBi with _ | j
    · unfold ptSwap
      simp only []
      refine set_active_after _ nb nc ?_
      exact updateContentAt_clear_count s k c hkc hca h1
    · unfold ptSwap
      simp only []
      refine set_active_after _ nb nc ?_
      have hkc1 : (updateButtonAt s j
          (fun b => { b with activeClass := false })).tabContents[k]? = some c := by
        rw [updateButtonAt_tabContents]
        exact hkc
      refine updateContentAt_clear_count _ k c hkc1 hca ?_
      rw [panelActiveCount_buttons]
      exact h1

theorem ptFadeOut_contents_map (s : TabsState) (cc : Option Nat) :
    (ptFadeOut s cc).tabContents.map (fun c => c.activeClass)
      = s.tabContents.map (fun c => c.activeClass) := by
  unfold ptFadeOut
  rcases cc with _ | k
  · rfl
  · exact updateContentAt_map_activeClass _ _ _ (fun c _ => rfl)

theorem ptFadeIn_contents_map (s : TabsState) (nc : Nat) :
    (ptFadeIn s nc).tabContents.map (fun c => c.activeClass)
      = s.tabContents.map (fun c => c.activeClass) :=
  updateContentAt_map_activeClass _ _ _ (fun _ _ => rfl)

theorem applyAccessibilityStep_contents_map (s : TabsState) (i : Nat) :
    (applyAccessibilityStep s i).tabContents.map (fun c => c.activeClass)
      = s.tabContents.map (fun c => c.activeClass) := by
  unfold applyAccessibilityStep
  rcases hb : s.tabButtons[i]? with _ | b
  · rfl
  · simp only []
    rcases hfc : findContentIdx { s with tabButtons := s.tabButtons.set i (accessBtn b) }
        b.dataTab with _ | ci
    · simp only [hfc]
    · simp only [hfc]
      rw [updateContentAt_map_activeClass _ ci
        (accessPanel b.activeClass ("tab-" ++ b.dataTab)) (fun _ _ => rfl)]

theorem updateTabAccessibility_contents_map (s : TabsState) :
    (updateTabAccessibility s).tabContents.map (fun c => c.activeClass)
      = s.tabContents.map (fun c => c.activeClass) := by
  unfold updateTabAccessibility
  exact @foldl_preserves TabsState Nat (List Bool) applyAccessibilityStep
    (fun st => st.tabContents.map (fun c => c.activeClass))
    applyAccessibilityStep_contents_map _ s

/-- The all-cleared intermediate state of updateActiveStates. -/
def uasCleared (s : TabsState) : TabsState :=
  { s with
    tabButtons := s.tabButtons.map (fun b => { b with activeClass := false }),
    tabContents := s.tabContents.map (fun c =>
      { c with activeClass := false, opacity := "0", transformStyle := "translateY(10px)" }) }

/-- updateActiveStates after clearing and setting the new active pair. -/
def uasActivated (s : TabsState) (bi ci : Nat) : TabsState :=
  updateContentAt (updateButtonAt (uasCleared s) bi (fun b => { b with activeClass := true })) ci
    (fun c => { c with activeClass := true, opacity := "1", transformStyle := "translateY(0)" })

/-- updateActiveStates after the tab-title update step. -/
def uasTitled (s : TabsState) (bi ci : Nat) : TabsState :=
  match (uasActivated s bi ci).tabButtons[bi]? with
  | some b => updateTabTitleDisplay (uasActivated s bi ci) b
  | none => uasActivated s bi ci

theorem updateActiveStates_eq (s : TabsState) (bi ci : Nat) :
    updateActiveStates s bi ci = updateTabAccessibility (uasTitled s bi ci) := by
  unfold updateActiveStates uasTitled uasActivated uasCleared
  rfl

theorem uasCleared_count (s : TabsState) : panelActiveCount (uasCleared s) = 0 := by
  unfold uasCleared panelActiveCount
  simp only []
  rw [List.countP_map]
  exact List.countP_eq_zero.mpr (fun a _ => by simp [Function.comp])

theorem uasActivated_count (s : TabsState) (bi ci : Nat) :
    panelActiveCount (uasActivated s bi ci) ≤ 1 := by
  unfold uasActivated
  have h1 := updateContentAt_count_le
    (updateButtonAt (uasCleared s) bi (fun b => { b with activeClass := true })) ci
    (fun c => { c with activeClass := true, opacity := "1", transformStyle := "translateY(0)" })
  have h2 : panelActiveCount
      (updateButtonAt (uasCleared s) bi (fun b => { b with activeClass := true })) = 0 := by
    rw [panelActiveCount_buttons]
    exact uasCleared_count s
  omega

theorem updateActiveStates_panelActiveCount_le (s : TabsState) (bi ci : Nat) :
    panelActiveCount (updateActiveStates s bi ci) ≤ 1 := by
  rw [updateActiveStates_eq]
  have hUA : panelActiveCount (updateTabAccessibility (uasTitled s bi ci))
      = panelActiveCount (uasTitled s bi ci) :=
    panelActiveCount_congr _ _ (updateTabAccessibility_contents_map _)
  have hT : panelActiveCount (uasTitled s bi ci) = panelActiveCount (uasActivated s bi ci) := by
    unfold uasTitled
    rcases hm : (uasActivated s bi ci).tabButtons[bi]? with _ | b
    · rfl
    · exact panelActiveCount_congr _ _
        (congrArg (fun l => l.map (fun c => c.activeClass))
          (updateTabTitleDisplay_tabContents _ _))
  rw [hUA, hT]
  exact uasActivated_count s bi ci

theorem firstIdx_congr_map {α β : Type} (f : α → β) (p : β → Bool) (l l' : List α)
    (h : l.map f = l'.map f) :
    firstIdx (fun a => p (f a)) l = firstIdx (fun a => p (f a)) l' := by
  rw [← firstIdx_map f p l, ← firstIdx_map f p l', h]

theorem activeContentIdx_congr (s s' : TabsState)
    (h : s.tabContents.map (fun c => c.activeClass)
        = s'.tabContents.map (fun c => c.activeClass)) :
    activeContentIdx s = activeContentIdx s' := by
  unfold activeContentIdx
  exact firstIdx_congr_map (fun c : TabPanel => c.activeClass) (fun x : Bool => x)
    s.tabContents s'.tabContents h

theorem switchLoadedState_contents_map (fO : FetchOracle) (iO : ImgOracle) (s1 : TabsState)
    (i ci : Nat) (t : String) (target : TabPanel) (hcc : s1.tabContents[ci]? = some target) :
    (switchLoadedState fO iO s1 i ci t target).tabContents.map (fun c => c.activeClass)
      = s1.tabContents.map (fun c => c.activeClass) := by
  unfold switchLoadedState
  have hx : (switchPrelude s1 i t).tabContents[ci]? = some target := by
    rw [switchPrelude_tabContents]
    exact hcc
  rw [updateContentAt_tabContents_eq _ ci _ target hx, switchPrelude_tabContents]
  exact map_set_same _ _ ci _ target hcc (preloadTabContent_activeClass fO iO target)

theorem panelActiveCount_clearTransitioning (x : TabsState) :
    panelActiveCount { x with transitioning := false } = panelActiveCount x := rfl

theorem panelActiveCount_setActiveTab (x : TabsState) (t : Option String) :
    panelActiveCount { x with activeTab := t } = panelActiveCount x := rfl

theorem switchToTab_panelActiveCount (fO : FetchOracle) (iO : ImgOracle) (s : TabsState)
    (i : Nat) (h1 : panelActiveCount s ≤ 1) :
    panelActiveCount (switchToTab fO iO s i).state ≤ 1 ∧
    ∀ s' ∈ (switchToTab fO iO s i).suspended, panelActiveCount s' ≤ 1 := by
  rcases hb : s.tabButtons[i]? with _ | b
  · unfold switchToTab
    simp only [hb]
    exact ⟨h1, by intro s' hs'; simp at hs'⟩
  · cases ht : s.transitioning with
    | true =>
      rw [switchToTab_busy fO iO s i ht]
      exact ⟨h1, by intro s' hs'; simp at hs'⟩
    | false =>
      cases ha : b.activeClass with
      | true =>
        rw [switchToTab_activeButton fO iO s i b hb ha]
        exact ⟨h1, by intro s' hs'; simp at hs'⟩
      | false =>
        rcases hc : findContentIdx s b.dataTab with _ | ci
        · rw [switchToTab_missing fO iO s i b hb ht ha hc]
          exact ⟨h1, by intro s' hs'; simp at hs'⟩
        · rcases hcc : s.tabContents[ci]? with _ | target
          · exfalso
            have hc2 := hc
            simp only [findContentIdx] at hc2
            obtain ⟨c, hcx, _⟩ := firstIdx_some hc2
            rw [hcx] at hcc
            cases hcc
          · rw [switchToTab_attempt_eq fO iO s i b ci target hb ht ha hc hcc]
            have hcc1 : ({ s with transitioning := true } : TabsState).tabContents[ci]?
                = some target := hcc
            have hpreC : panelActiveCount
                (switchPrelude { s with transitioning := true } i b.dataTab)
                = panelActiveCount s := by
              unfold panelActiveCount
              rw [switchPrelude_tabContents]
            have hloadM := switchLoadedState_contents_map fO iO
              { s with transitioning := true } i ci b.dataTab target hcc1
            have hloadC : panelActiveCount (switchLoadedState fO iO
                { s with transitioning := true } i ci b.dataTab target)
                = panelActiveCount s :=
              (panelActiveCount_congr _ _ hloadM).trans rfl
            cases hth : (preloadTabContent fO iO target).threw with
            | true =>
              rw [switchAttempt_failed fO iO _ i ci b.dataTab target hth]
              constructor
              · rw [panelActiveCount_clearTransitioning, panelActiveCount_buttons, hloadC]
                exact h1
              · intro s' hs'
                simp at hs'
                rcases hs' with rfl | rfl
                · rw [hpreC]; exact h1
                · rw [hloadC]; exact h1
            | false =>
              rw [switchAttempt_completed fO iO _ i ci b.dataTab target hth]
              have hfoM : (switchFadeOutState fO iO { s with transitioning := true } i ci
                    b.dataTab target).tabContents.map (fun c => c.activeClass)
                  = ({ s with transitioning := true } : TabsState).tabContents.map
                      (fun c => c.activeClass) := by
                unfold switchFadeOutState
                rw [ptFadeOut_contents_map]
                exact hloadM
              have hfoC : panelActiveCount (switchFadeOutState fO iO
                  { s with transitioning := true } i ci b.dataTab target)
                  = panelActiveCount s :=
                (panelActiveCount_congr _ _ hfoM).trans rfl
              have hidx : activeContentIdx ({ s with transitioning := true } : TabsState)
                  = activeContentIdx (switchFadeOutState fO iO
                      { s with transitioning := true } i ci b.dataTab target) :=
                activeContentIdx_congr _ _ hfoM.symm
              have hswapC : panelActiveCount (switchSwapState fO iO
                  { s with transitioning := true } i ci b.dataTab target) ≤ 1 := by
                unfold switchSwapState
                rw [hidx]
                refine ptSwap_panelActiveCount_le _ _ i ci ?_
                rw [hfoC]
                exact h1
              have hfiC : panelActiveCount (switchFadeInState fO iO
                  { s with transitioning := true } i ci b.dataTab target)
                  = panelActiveCount (switchSwapState fO iO
                      { s with transitioning := true } i ci b.dataTab target) := by
                unfold switchFadeInState
                exact panelActiveCount_congr _ _ (ptFadeIn_contents_map _ _)
              have hcommit : panelActiveCount (switchCommitState fO iO
                  { s with transitioning := true } i ci b.dataTab target) ≤ 1 := by
                unfold switchCommitState
                rw [panelActiveCount_buttons, panelActiveCount_setActiveTab]
                exact updateActiveStates_panelActiveCount_le _ i ci
              constructor
              · rw [panelActiveCount_clearTransitioning]
                exact hcommit
              · intro s' hs'
                simp at hs'
                rcases hs' with rfl | rfl | rfl | rfl | rfl
                · rw [hpreC]; exact h1
                · rw [hloadC]; exact h1
                · rw [hfoC]; exact h1
                · exact hswapC
                · rw [hfiC]; exact hswapC

/-- C7: the DOM never shows two panels carrying the active class at once.  At
every suspension point of a switch — including the two cross-fade waits, whose
class swap (remove actives, then add the new ones) is one synchronous block —
at most one panel is active, the final state of every call keeps at most one
panel active, and hence for every sequence of requestSwitch calls every Idle
observation point has at most one active panel. -/
theorem c7_at_most_one_active_panel :
    (∀ (fO : FetchOracle) (iO : ImgOracle) (s : TabsState) (i : Nat),
        panelActiveCount s ≤ 1 →
        panelActiveCount (switchToTab fO iO s i).state ≤ 1 ∧
        ∀ s' ∈ (switchToTab fO iO s i).suspended, panelActiveCount s' ≤ 1) ∧
    (∀ (fO : FetchOracle) (iO : ImgOracle) (reqs : List Nat) (s : TabsState),
        panelActiveCount s ≤ 1 → panelActiveCount (runRequests fO iO reqs s) ≤ 1) := by
  constructor
  · exact fun fO iO s i h1 => switchToTab_panelActiveCount fO iO s i h1
  · intro fO iO reqs
    induction reqs with
    | nil => intro s h1; exact h1
    | cons r rest ih =>
      intro s h1
      exact ih _ ((switchToTab_panelActiveCount fO iO s r h1).1)

theorem c7_witness :
    panelActiveCount (runRequests okOracle allImgsOk [1, 0, 1] sTwoTabs) ≤ 1 :=
  c7_at_most_one_active_panel.2 okOracle allImgsOk [1, 0, 1] sTwoTabs (by decide)

/-! Claim C6. -/

/-- The registry discovered from markup is well formed: trigger data-tabs are
unique, panel ids are unique, and every panel id is referenced by some
trigger. -/
def wellFormed (s : TabsState) : Prop :=
  (s.tabButtons.map (fun bb => bb.dataTab)).Nodup ∧
  (s.tabContents.map (fun c => c.id)).Nodup ∧
  ∀ cid ∈ s.tabContents.map (fun c => c.id), cid ∈ s.tabButtons.map (fun bb => bb.dataTab)

/-- The index of the button (if any) whose data-tab references the panel id
`cid`, i.e. the forEach iteration that writes that panel, by first match. -/
def accessWriter (t : TabsState) (cid : String) : Option Nat :=
  firstIdx (fun bb => bb.dataTab == cid) t.tabButtons

/-- The active class of the button at index `j`. -/
def activeAt (t : TabsState) (j : Nat) : Bool :=
  (t.tabButtons[j]?.map (fun bb => bb.activeClass)).getD false

/-- The value the accessibility sync leaves in a panel once the writers among
the first `k` buttons have run. -/
def accessPanelFinal (t : TabsState) (k : Nat) (c : TabPanel) : TabPanel :=
  match accessWriter t c.id with
  | some j => if j < k then accessPanel (activeAt t j) ("tab-" ++ c.id) c else c
  | none => c

theorem firstIdx_nodup_map {α β : Type} (f : α → β) [BEq β] [LawfulBEq β] :
    ∀ (l : List α), (l.map f).Nodup → ∀ (k : Nat) (x : α), l[k]? = some x →
      firstIdx (fun a => f a == f x) l = some k := by
  intro l
  induction l with
  | nil => intro _ k x hk; simp at hk
  | cons a t ih =>
    intro hN k x hk
    rw [List.map_cons, List.nodup_cons] at hN
    cases k with
    | zero =>
      simp only [List.getElem?_cons_zero, Option.some.injEq] at hk
      subst hk
      simp [firstIdx]
    | succ j =>
      simp only [List.getElem?_cons_succ] at hk
      have hmem : x ∈ t := List.getElem?_mem hk
      have hne : (f a == f x) = false := by
        have h1 : f x ∈ t.map f := List.mem_map_of_mem f hmem
        have h2 : f a ≠ f x := fun he => hN.1 (he ▸ h1)
        simp [h2]
      simp [firstIdx, hne, ih hN.2 j x hk]

theorem nodup_map_getElem_inj {α β : Type} (f : α → β) :
    ∀ (l : List α), (l.map f).Nodup → ∀ (m mk : Nat) (c cm : α),
      l[m]? = some c → l[mk]? = some cm → f c = f cm → m = mk := by
  intro l
  induction l with
  | nil => intro _ m mk c cm hm; simp at hm
  | cons a t ih =>
    intro hN m mk c cm hm hmk hf
    rw [List.map_cons, List.nodup_cons] at hN
    cases m with
    | zero =>
      cases mk with
      | zero => rfl
      | succ jk =>
        simp only [List.getElem?_cons_zero, Option.some.injEq] at hm
        simp only [List.getElem?_cons_succ] at hmk
        exfalso
        apply hN.1
        rw [hm, hf]
        exact List.mem_map_of_mem f (List.getElem?_mem hmk)
    | succ j =>
      cases mk with
      | zero =>
        simp only [List.getElem?_cons_zero, Option.some.injEq] at hmk
        simp only [List.getElem?_cons_succ] at hm
        exfalso
        apply hN.1
        rw [hmk, ← hf]
        exact List.mem_map_of_mem f (List.getElem?_mem hm)
      | succ jk =>
        simp only [List.getElem?_cons_succ] at hm hmk
        exact congrArg (fun n => n + 1) (ih hN.2 j jk c cm hm hmk hf)

theorem take_map_set_step {α : Type} (f : α → α) :
    ∀ (l : List α) (k : Nat) (x : α), l[k]? = some x →
      ((l.take k).map f ++ l.drop k).set k (f x)
        = (l.take (k + 1)).map f ++ l.drop (k + 1) := by
  intro l
  induction l with
  | nil => intro k x hk; simp at hk
  | cons a t ih =>
    intro k x hk
    cases k with
    | zero =>
      simp only [List.getElem?_cons_zero, Option.some.injEq] at hk
      subst hk
      simp
    | succ j =>
      simp only [List.getElem?_cons_succ] at hk
      simp only [List.take_succ_cons, List.drop_succ_cons, List.map_cons, List.cons_append,
        List.set_cons_succ]
      rw [ih j x hk]

theorem findContentIdx_congr (sA sB : TabsState) (tabId : String)
    (h : sA.tabContents.map (fun c => c.id) = sB.tabContents.map (fun c => c.id)) :
    findContentIdx sA tabId = findContentIdx sB tabId := by
  unfold findContentIdx
  exact firstIdx_congr_map (fun c : TabPanel => c.id) (fun x : String => x == tabId)
    sA.tabContents sB.tabContents h

/-- The state after updateTabAccessibility's iteration `i` has written the
button's attributes (before the panel write). -/
def accessStepState (s : TabsState) (i : Nat) (b : TabButton) : TabsState :=
  { s with tabButtons := s.tabButtons.set i (accessBtn b) }

theorem applyAccessibilityStep_none (s : TabsState) (i : Nat) (b : TabButton)
    (hb : s.tabButtons[i]? = some b)
    (hw : findContentIdx (accessStepState s i b) b.dataTab = none) :
    applyAccessibilityStep s i = accessStepState s i b := by
  unfold applyAccessibilityStep accessStepState
  unfold accessStepState at hw
  simp only [hb, hw]

theorem applyAccessibilityStep_write (s : TabsState) (i : Nat) (b : TabButton) (ci : Nat)
    (hb : s.tabButtons[i]? = some b)
    (hw : findContentIdx (accessStepState s i b) b.dataTab = some ci) :
    applyAccessibilityStep s i
      = updateContentAt (accessStepState s i b) ci
          (accessPanel b.activeClass ("tab-" ++ b.dataTab)) := by
  unfold applyAccessibilityStep accessStepState
  unfold accessStepState at hw
  simp only [hb, hw]

theorem ua_fold_invariant (t : TabsState)
    (hBN : (t.tabButtons.map (fun bb => bb.dataTab)).Nodup)
    (hCN : (t.tabContents.map (fun c => c.id)).Nodup) :
    ∀ k, k ≤ t.tabButtons.length →
      (((List.range k).foldl applyAccessibilityStep t).tabButtons
          = (t.tabButtons.take k).map accessBtn ++ t.tabButtons.drop k) ∧
      (((List.range k).foldl applyAccessibilityStep t).tabContents.map (fun c => c.id)
          = t.tabContents.map (fun c => c.id)) ∧
      (∀ (m : Nat) (c : TabPanel), t.tabContents[m]? = some c →
          ((List.range k).foldl applyAccessibilityStep t).tabContents[m]?
            = some (accessPanelFinal t k c)) := by
  intro k
  induction k with
  | zero =>
    intro _
    refine ⟨by simp, rfl, ?_⟩
    intro m c hm
    simp only [List.range_zero, List.foldl_nil]
    rw [hm]
    congr 1
    unfold accessPanelFinal
    rcases accessWriter t c.id with _ | j
    · rfl
    · simp
  | succ k ihk =>
    intro hk1
    have hk : k < t.tabButtons.length := hk1
    obtain ⟨ha, hc, hb⟩ := ihk (Nat.le_of_lt hk)
    rw [List.range_succ, List.foldl_append, List.foldl_cons, List.foldl_nil]
    obtain ⟨bk, hbk⟩ : ∃ bk, t.tabButtons[k]? = some bk :=
      ⟨_, List.getElem?_eq_getElem hk⟩
    have huk : ((List.range k).foldl applyAccessibilityStep t).tabButtons[k]? = some bk := by
      rw [ha, List.getElem?_append_right (by
        simp [List.length_take, Nat.min_eq_left (Nat.le_of_lt hk)])]
      simp only [List.length_map, List.length_take, Nat.min_eq_left (Nat.le_of_lt hk)]
      rw [Nat.sub_self, List.getElem?_drop, Nat.add_zero]
      exact hbk
    have hs1c : (accessStepState ((List.range k).foldl applyAccessibilityStep t) k
        bk).tabContents.map (fun c => c.id) = t.tabContents.map (fun c => c.id) := hc
    have hfcg : findContentIdx (accessStepState ((List.range k).foldl applyAccessibilityStep t)
        k bk) bk.dataTab = findContentIdx t bk.dataTab :=
      findContentIdx_congr _ _ _ hs1c
    have hbuttons : (accessStepState ((List.range k).foldl applyAccessibilityStep t) k
        bk).tabButtons = (t.tabButtons.take (k + 1)).map accessBtn
          ++ t.tabButtons.drop (k + 1) := by
      unfold accessStepState
      simp only []
      rw [ha]
      exact take_map_set_step accessBtn t.tabButtons k bk hbk
    rcases hw : findContentIdx t bk.dataTab with _ | mk
    · rw [applyAccessibilityStep_none _ k bk huk (by rw [hfcg]; exact hw)]
      refine ⟨hbuttons, hs1c, ?_⟩
      intro m c hm
      have hstep : (accessStepState ((List.range k).foldl applyAccessibilityStep t) k
          bk).tabContents[m]?
          = ((List.range k).foldl applyAccessibilityStep t).tabContents[m]? := rfl
      rw [hstep, hb m c hm]
      congr 1
      unfold accessPanelFinal
      rcases hwj : accessWriter t c.id with _ | j
      · rfl
      · by_cases hjk : j = k
        · exfalso
          subst hjk
          obtain ⟨bj, hbj, hpj⟩ := firstIdx_some hwj
          rw [hbk] at hbj
          injection hbj with hbj
          subst hbj
          have hcid : c.id = bk.dataTab := (eq_of_beq hpj).symm
          have hnone : ∀ p ∈ t.tabContents, (p.id == bk.dataTab) = false :=
            firstIdx_none (show firstIdx (fun p => p.id == bk.dataTab) t.tabContents = none
              from hw)
          have hcmem : c ∈ t.tabContents := List.getElem?_mem hm
          have hfc := hnone c hcmem
          rw [hcid] at hfc
          simp at hfc
        · by_cases hjlt : j < k
          · simp [hjlt, Nat.lt_succ_of_lt hjlt]
          · have h2 : ¬ j < k + 1 := by omega
            simp [hjlt, h2]
    · rw [applyAccessibilityStep_write _ k bk mk huk (by rw [hfcg]; exact hw)]
      obtain ⟨cmk, hcmk, hpmk⟩ := firstIdx_some
        (show firstIdx (fun p => p.id == bk.dataTab) t.tabContents = some mk from hw)
      have hcmkid : cmk.id = bk.dataTab := eq_of_beq hpmk
      have hwriter : accessWriter t cmk.id = some k := by
        unfold accessWriter
        rw [hcmkid]
        exact firstIdx_nodup_map (fun bb => bb.dataTab) t.tabButtons hBN k bk hbk
      have hAPFk : accessPanelFinal t k cmk = cmk := by
        unfold accessPanelFinal
        rw [hwriter]
        simp
      have hs1mk : (accessStepState ((List.range k).foldl applyAccessibilityStep t) k
          bk).tabContents[mk]? = some cmk := by
        have hstep : (accessStepState ((List.range k).foldl applyAccessibilityStep t) k
            bk).tabContents[mk]?
            = ((List.range k).foldl applyAccessibilityStep t).tabContents[mk]? := rfl
        rw [hstep, hb mk cmk hcmk, hAPFk]
      refine ⟨?_, ?_, ?_⟩
      · rw [updateContentAt_tabButtons]
        exact hbuttons
      · rw [updateContentAt_tabContents_eq _ mk _ cmk hs1mk]
        rw [map_set_same (fun c => c.id) _ mk
          (accessPanel bk.activeClass ("tab-" ++ bk.dataTab) cmk) cmk hs1mk rfl]
        exact hs1c
      · intro m c hm
        by_cases hmmk : m = mk
        · subst hmmk
          have hcmk2 := hcmk
          rw [hm] at hcmk2
          have hceq : c = cmk := Option.some.inj hcmk2
          rw [hceq]
          rw [updateContentAt_getElem _ m _ cmk hs1mk]
          congr 1
          unfold accessPanelFinal
          rw [hwriter]
          simp only [Nat.lt_succ_self, if_true]
          unfold accessPanel activeAt
          rw [hbk, hcmkid]
          rfl
        · have hset := updateContentAt_tabContents_eq
            (accessStepState ((List.range k).foldl applyAccessibilityStep t) k bk) mk
            (accessPanel bk.activeClass ("tab-" ++ bk.dataTab)) cmk hs1mk
          rw [hset, List.getElem?_set_ne (fun he => hmmk he.symm)]
          have hstep : (accessStepState ((List.range k).foldl applyAccessibilityStep t) k
              bk).tabContents[m]?
              = ((List.range k).foldl applyAccessibilityStep t).tabContents[m]? := rfl
          rw [hstep, hb m c hm]
          congr 1
          unfold accessPanelFinal
          rcases hwj : accessWriter t c.id with _ | j
          · rfl
          · by_cases hjk : j = k
            · exfalso
              subst hjk
              obtain ⟨bj, hbj, hpj⟩ := firstIdx_some hwj
              rw [hbk] at hbj
              injection hbj with hbj
              subst hbj
              have hcid : c.id = bk.dataTab := (eq_of_beq hpj).symm
              exact hmmk (nodup_map_getElem_inj (fun c => c.id) t.tabContents hCN m mk c cmk
                hm hcmk (by show c.id = cmk.id; rw [hcid, hcmkid]))
            · by_cases hjlt : j < k
              · simp [hjlt, Nat.lt_succ_of_lt hjlt]
              · have h2 : ¬ j < k + 1 := by omega
                simp [hjlt, h2]

theorem lt_length_of_getElem? {α : Type} {l : List α} {i : Nat} {x : α}
    (h : l[i]? = some x) : i < l.length := by
  by_contra hge
  push_neg at hge
  rw [List.getElem?_eq_none hge] at h
  cases h

theorem firstIdx_lt_length {α : Type} {p : α → Bool} {l : List α} {j : Nat}
    (h : firstIdx p l = some j) : j < l.length := by
  obtain ⟨a, ha, _⟩ := firstIdx_some h
  exact lt_length_of_getElem? ha

theorem firstIdx_isSome_of_mem {α β : Type} (f : α → β) [BEq β] [LawfulBEq β] (cid : β) :
    ∀ (l : List α), cid ∈ l.map f → ∃ j, firstIdx (fun a => f a == cid) l = some j := by
  intro l
  induction l with
  | nil => intro h; simp at h
  | cons a tl ih =>
    intro h
    rw [List.map_cons, List.mem_cons] at h
    by_cases hpa : (f a == cid) = true
    · exact ⟨0, by simp [firstIdx, hpa]⟩
    · rcases h with he | hmem
      · exfalso
        rw [he] at hpa
        simp at hpa
      · obtain ⟨j, hj⟩ := ih hmem
        exact ⟨j + 1, by simp [firstIdx, hpa, hj]⟩

theorem countP_congr' {α : Type} (p q : α → Bool) :
    ∀ (l : List α), (∀ a ∈ l, p a = q a) → l.countP p = l.countP q := by
  intro l
  induction l with
  | nil => intro _; rfl
  | cons a tl ih =>
    intro h
    rw [List.countP_cons, List.countP_cons, h a (List.mem_cons_self a tl),
      ih (fun x hx => h x (List.mem_cons_of_mem a hx))]

theorem countP_beq_nodup {β : Type} [BEq β] [LawfulBEq β] (x : β) :
    ∀ (l : List β), l.Nodup → x ∈ l → l.countP (fun y => y == x) = 1 := by
  intro l
  induction l with
  | nil => intro _ hx; simp at hx
  | cons a tl ih =>
    intro hN hx
    rw [List.nodup_cons] at hN
    rw [List.mem_cons] at hx
    rcases hx with rfl | hmem
    · have hz : tl.countP (fun y => y == x) = 0 := by
        rw [List.countP_eq_zero]
        intro y hy hbeq
        exact hN.1 ((eq_of_beq hbeq) ▸ hy)
      rw [List.countP_cons, hz]
      simp
    · have hne : a ≠ x := fun he => hN.1 (he ▸ hmem)
      rw [List.countP_cons, ih hN.2 hmem]
      simp [hne]

theorem updateButtonAt_map_proj {β : Type} (proj : TabButton → β) (s : TabsState) (i : Nat)
    (f : TabButton → TabButton) (hf : ∀ bb, proj (f bb) = proj bb) :
    (updateButtonAt s i f).tabButtons.map proj = s.tabButtons.map proj := by
  unfold updateButtonAt
  rcases hx : s.tabButtons[i]? with _ | x
  · rfl
  · exact map_set_same _ _ _ _ _ hx (hf x)

theorem updateContentAt_map_proj {β : Type} (proj : TabPanel → β) (s : TabsState) (ci : Nat)
    (f : TabPanel → TabPanel)
    (hf : ∀ c, s.tabContents[ci]? = some c → proj (f c) = proj c) :
    (updateContentAt s ci f).tabContents.map proj = s.tabContents.map proj := by
  unfold updateContentAt
  rcases hx : s.tabContents[ci]? with _ | x
  · rfl
  · exact map_set_same _ _ _ _ _ hx (hf x hx)

theorem map_map_proj {α β : Type} (f : α → α) (proj : α → β)
    (hf : ∀ a, proj (f a) = proj a) :
    ∀ (l : List α), (l.map f).map proj = l.map proj := by
  intro l
  induction l with
  | nil => rfl
  | cons a tl ih => simp [hf, ih]

/-- preloadTabContent never changes the panel's id. -/
theorem preloadTabContent_id (fO : FetchOracle) (iO : ImgOracle) (el : TabPanel) :
    (preloadTabContent fO iO el).panel.id = el.id := by
  cases hd : preloadDecision el with
  | none => simp [preloadTabContent, preloadImages, hd]
  | some url =>
    cases hf : fO url with
    | ok r =>
      cases r with
      | mk h i => simp [preloadTabContent, preloadImages, hd, hf]
    | error e => simp [preloadTabContent, hd, hf]

theorem updateButtonAt_countP (s : TabsState) (i : Nat) (f : TabButton → TabButton)
    (p : TabButton → Bool) (hp : ∀ bb, p (f bb) = p bb) :
    (updateButtonAt s i f).tabButtons.countP p = s.tabButtons.countP p := by
  unfold updateButtonAt
  rcases hx : s.tabButtons[i]? with _ | x
  · rfl
  · simp only []
    have hset := countP_set' p s.tabButtons i x (f x) hx
    rw [hp x] at hset
    omega

theorem updateButtonAt_getElem_cases (s : TabsState) (i j : Nat) (f : TabButton → TabButton) :
    (updateButtonAt s i f).tabButtons[j]? = s.tabButtons[j]?
      ∨ ∃ x, s.tabButtons[j]? = some x
          ∧ (updateButtonAt s i f).tabButtons[j]? = some (f x) := by
  unfold updateButtonAt
  rcases hx : s.tabButtons[i]? with _ | x
  · left; rfl
  · by_cases hij : i = j
    · subst hij
      right
      exact ⟨x, hx, by simp only []; exact getElem?_set_some hx⟩
    · left
      simp only []
      exact List.getElem?_set_ne hij

theorem updateTabAccessibility_buttons_eq (t : TabsState)
    (hBN : (t.tabButtons.map (fun bb => bb.dataTab)).Nodup)
    (hCN : (t.tabContents.map (fun c => c.id)).Nodup) :
    (updateTabAccessibility t).tabButtons = t.tabButtons.map accessBtn := by
  unfold updateTabAccessibility
  have h := (ua_fold_invariant t hBN hCN t.tabButtons.length (Nat.le_refl _)).1
  rw [h, List.take_length, List.drop_length, List.append_nil]

theorem updateTabAccessibility_contents_eq (t : TabsState)
    (hBN : (t.tabButtons.map (fun bb => bb.dataTab)).Nodup)
    (hCN : (t.tabContents.map (fun c => c.id)).Nodup) :
    (updateTabAccessibility t).tabContents
      = t.tabContents.map (accessPanelFinal t t.tabButtons.length) := by
  apply List.ext_getElem?
  intro m
  rcases hm : t.tabContents[m]? with _ | c
  · have hlen : t.tabContents.length ≤ m := by
      by_contra hlt
      push_neg at hlt
      rw [List.getElem?_eq_getElem hlt] at hm
      cases hm
    have hlen2 : (updateTabAccessibility t).tabContents.length = t.tabContents.length := by
      have h2 := congrArg List.length (updateTabAccessibility_contents_map t)
      simpa using h2
    rw [List.getElem?_eq_none (by rw [hlen2]; exact hlen),
      List.getElem?_eq_none (by simpa using hlen)]
  · unfold updateTabAccessibility
    rw [(ua_fold_invariant t hBN hCN t.tabButtons.length (Nat.le_refl _)).2.2 m c hm,
      List.getElem?_map, hm]
    rfl

theorem uasActivated_buttons (X : TabsState) (i ci : Nat) (bX : TabButton)
    (hi : X.tabButtons[i]? = some bX) :
    (uasActivated X i ci).tabButtons
      = (X.tabButtons.map (fun bb => { bb with activeClass := false })).set i
          { bX with activeClass := true } := by
  unfold uasActivated
  rw [updateContentAt_tabButtons]
  unfold updateButtonAt
  have hx : (uasCleared X).tabButtons[i]? = some { bX with activeClass := false } := by
    unfold uasCleared
    simp only []
    rw [List.getElem?_map, hi]
    rfl
  simp only [hx]
  rfl

theorem uasTitled_buttons (X : TabsState) (i ci : Nat) (bX : TabButton)
    (hi : X.tabButtons[i]? = some bX) :
    (uasTitled X i ci).tabButtons
      = (X.tabButtons.map (fun bb => { bb with activeClass := false })).set i
          { bX with activeClass := true } := by
  unfold uasTitled
  rcases hm : (uasActivated X i ci).tabButtons[i]? with _ | bb
  · exact uasActivated_buttons X i ci bX hi
  · rw [updateTabTitleDisplay_tabButtons]
    exact uasActivated_buttons X i ci bX hi

theorem uasActivated_contents_idmap (X : TabsState) (i ci : Nat) :
    (uasActivated X i ci).tabContents.map (fun c => c.id)
      = X.tabContents.map (fun c => c.id) := by
  unfold uasActivated
  rw [updateContentAt_map_proj (fun c => c.id) _ ci
    (fun c => { c with activeClass := true, opacity := "1", transformStyle := "translateY(0)" })
    (fun c _ => rfl)]
  rw [updateButtonAt_tabContents]
  unfold uasCleared
  simp only []
  exact map_map_proj
    (fun c => { c with activeClass := false, opacity := "0", transformStyle := "translateY(10px)" })
    (fun c => c.id) (fun a => rfl) X.tabContents

theorem uasTitled_contents_idmap (X : TabsState) (i ci : Nat) :
    (uasTitled X i ci).tabContents.map (fun c => c.id)
      = X.tabContents.map (fun c => c.id) := by
  unfold uasTitled
  rcases hm : (uasActivated X i ci).tabButtons[i]? with _ | bb
  · exact uasActivated_contents_idmap X i ci
  · rw [updateTabTitleDisplay_tabContents]
    exact uasActivated_contents_idmap X i ci

theorem ptSwap_buttons_dataTab (s : TabsState) (cb cc : Option Nat) (nb nc : Nat) :
    (ptSwap s cb cc nb nc).tabButtons.map (fun bb => bb.dataTab)
      = s.tabButtons.map (fun bb => bb.dataTab) := by
  rcases cb with _ | j <;> rcases cc with _ | k <;>
    unfold ptSwap <;> simp only []
  · rw [updateContentAt_tabButtons,
      updateButtonAt_map_proj (fun bb => bb.dataTab) _ nb
        (fun b => { b with activeClass := true }) (fun bb => rfl)]
  · rw [updateContentAt_tabButtons,
      updateButtonAt_map_proj (fun bb => bb.dataTab) _ nb
        (fun b => { b with activeClass := true }) (fun bb => rfl),
      updateContentAt_tabButtons]
  · rw [updateContentAt_tabButtons,
      updateButtonAt_map_proj (fun bb => bb.dataTab) _ nb
        (fun b => { b with activeClass := true }) (fun bb => rfl),
      updateButtonAt_map_proj (fun bb => bb.dataTab) _ j
        (fun b => { b with activeClass := false }) (fun bb => rfl)]
  · rw [updateContentAt_tabButtons,
      updateButtonAt_map_proj (fun bb => bb.dataTab) _ nb
        (fun b => { b with activeClass := true }) (fun bb => rfl),
      updateContentAt_tabButtons,
      updateButtonAt_map_proj (fun bb => bb.dataTab) _ j
        (fun b => { b with activeClass := false }) (fun bb => rfl)]

theorem ptSwap_contents_idmap (s : TabsState) (cb cc : Option Nat) (nb nc : Nat) :
    (ptSwap s cb cc nb nc).tabContents.map (fun c => c.id)
      = s.tabContents.map (fun c => c.id) := by
  rcases cb with _ | j <;> rcases cc with _ | k <;>
    unfold ptSwap <;> simp only []
  · rw [updateContentAt_map_proj (fun c => c.id) _ nc
        (fun c => { c with activeClass := true }) (fun c _ => rfl),
      updateButtonAt_tabContents]
  · rw [updateContentAt_map_proj (fun c => c.id) _ nc
        (fun c => { c with activeClass := true }) (fun c _ => rfl),
      updateButtonAt_tabContents,
      updateContentAt_map_proj (fun c => c.id) _ k
        (fun c => { c with activeClass := false }) (fun c _ => rfl)]
  · rw [updateContentAt_map_proj (fun c => c.id) _ nc
        (fun c => { c with activeClass := true }) (fun c _ => rfl),
      updateButtonAt_tabContents, updateButtonAt_tabContents]
  · rw [updateContentAt_map_proj (fun c => c.id) _ nc
        (fun c => { c with activeClass := true }) (fun c _ => rfl),
      updateButtonAt_tabContents,
      updateContentAt_map_proj (fun c => c.id) _ k
        (fun c => { c with activeClass := false }) (fun c _ => rfl),
      updateButtonAt_tabContents]

theorem ptFadeOut_contents_idmap (s : TabsState) (cc : Option Nat) :
    (ptFadeOut s cc).tabContents.map (fun c => c.id)
      = s.tabContents.map (fun c => c.id) := by
  unfold ptFadeOut
  rcases cc with _ | k
  · rfl
  · exact updateContentAt_map_proj (fun c => c.id) _ k _ (fun c _ => rfl)

theorem switchPrelude_buttons_dataTab (s1 : TabsState) (i : Nat) (t : String) :
    (switchPrelude s1 i t).tabButtons.map (fun bb => bb.dataTab)
      = s1.tabButtons.map (fun bb => bb.dataTab) := by
  unfold switchPrelude
  rw [updateButtonAt_map_proj (fun bb => bb.dataTab) _ i
    (fun b => { b with loadingClass := true }) (fun bb => rfl)]

theorem switchFadeInState_buttons_dataTab (fO : FetchOracle) (iO : ImgOracle)
    (s1 : TabsState) (i ci : Nat) (t : String) (target : TabPanel) :
    (switchFadeInState fO iO s1 i ci t target).tabButtons.map (fun bb => bb.dataTab)
      = s1.tabButtons.map (fun bb => bb.dataTab) := by
  unfold switchFadeInState
  rw [ptFadeIn_tabButtons]
  unfold switchSwapState
  rw [ptSwap_buttons_dataTab]
  unfold switchFadeOutState
  rw [ptFadeOut_tabButtons, switchLoadedState_tabButtons]
  exact switchPrelude_buttons_dataTab s1 i t

theorem switchLoadedState_contents_idmap (fO : FetchOracle) (iO : ImgOracle)
    (s1 : TabsState) (i ci : Nat) (t : String) (target : TabPanel)
    (hcc : s1.tabContents[ci]? = some target) :
    (switchLoadedState fO iO s1 i ci t target).tabContents.map (fun c => c.id)
      = s1.tabContents.map (fun c => c.id) := by
  unfold switchLoadedState
  have hx : (switchPrelude s1 i t).tabContents[ci]? = some target := by
    rw [switchPrelude_tabContents]
    exact hcc
  rw [updateContentAt_map_proj (fun c => c.id) _ ci _ (by
    intro c hsome
    rw [hx] at hsome
    show (preloadTabContent fO iO target).panel.id = c.id
    rw [preloadTabContent_id, Option.some.inj hsome])]
  rw [switchPrelude_tabContents]

theorem switchFadeInState_contents_idmap (fO : FetchOracle) (iO : ImgOracle)
    (s1 : TabsState) (i ci : Nat) (t : String) (target : TabPanel)
    (hcc : s1.tabContents[ci]? = some target) :
    (switchFadeInState fO iO s1 i ci t target).tabContents.map (fun c => c.id)
      = s1.tabContents.map (fun c => c.id) := by
  unfold switchFadeInState ptFadeIn
  rw [updateContentAt_map_proj (fun c => c.id) _ ci
    (fun c => { c with opacity := "1", transformStyle := "translateY(0)" }) (fun c _ => rfl)]
  unfold switchSwapState
  rw [ptSwap_contents_idmap]
  unfold switchFadeOutState
  rw [ptFadeOut_contents_idmap]
  exact switchLoadedState_contents_idmap fO iO s1 i ci t target hcc

/-- Characterization of updateActiveStates on a well-formed registry: after
activating button index i (carrying bX) and any panel index, exactly one
trigger carries aria-selected true (with tabindex 0, and it is the activated
trigger), every other trigger carries aria-selected false with tabindex -1,
exactly one panel is unhidden, and a panel has aria-hidden false exactly when
its id equals the activated trigger's data-tab. -/
theorem updateActiveStates_access (X : TabsState) (i ci : Nat) (bX : TabButton)
    (hBN : (X.tabButtons.map (fun bb => bb.dataTab)).Nodup)
    (hCN : (X.tabContents.map (fun c => c.id)).Nodup)
    (hbij : ∀ cid ∈ X.tabContents.map (fun c => c.id),
        cid ∈ X.tabButtons.map (fun bb => bb.dataTab))
    (hi : X.tabButtons[i]? = some bX)
    (hex : bX.dataTab ∈ X.tabContents.map (fun c => c.id)) :
    ((updateActiveStates X i ci).tabButtons.countP
        (fun bb => bb.ariaSelected == some true) = 1) ∧
    (∀ (j : Nat) (bb : TabButton), (updateActiveStates X i ci).tabButtons[j]? = some bb →
        (bb.ariaSelected = some true → bb.dataTab = bX.dataTab ∧ bb.tabIndexAttr = some 0) ∧
        (bb.ariaSelected ≠ some true →
          bb.ariaSelected = some false ∧ bb.tabIndexAttr = some (-1))) ∧
    ((updateActiveStates X i ci).tabContents.countP
        (fun c => c.ariaHidden == some false) = 1) ∧
    (∀ (m : Nat) (c : TabPanel), (updateActiveStates X i ci).tabContents[m]? = some c →
        (c.ariaHidden = some false ↔ c.id = bX.dataTab) ∧
        (c.ariaHidden = some false ∨ c.ariaHidden = some true)) := by
  rw [updateActiveStates_eq]
  have htb : (uasTitled X i ci).tabButtons
      = (X.tabButtons.map (fun bb => { bb with activeClass := false })).set i
          { bX with activeClass := true } := uasTitled_buttons X i ci bX hi
  have hcmap : (uasTitled X i ci).tabContents.map (fun c => c.id)
      = X.tabContents.map (fun c => c.id) := uasTitled_contents_idmap X i ci
  have hms : ((X.tabButtons.map (fun bb => { bb with activeClass := false })).set i
        { bX with activeClass := true }).map (fun bb => bb.dataTab)
      = (X.tabButtons.map (fun bb => { bb with activeClass := false })).map
          (fun bb => bb.dataTab) :=
    map_set_same (fun bb => bb.dataTab)
      (X.tabButtons.map (fun bb => { bb with activeClass := false })) i
      { bX with activeClass := true } { bX with activeClass := false }
      (by rw [List.getElem?_map, hi]; rfl) rfl
  have hbmap : (uasTitled X i ci).tabButtons.map (fun bb => bb.dataTab)
      = X.tabButtons.map (fun bb => bb.dataTab) := by
    rw [htb, hms]
    exact map_map_proj (fun bb => { bb with activeClass := false }) (fun bb => bb.dataTab)
      (fun a => rfl) X.tabButtons
  have htBN : ((uasTitled X i ci).tabButtons.map (fun bb => bb.dataTab)).Nodup := by
    rw [hbmap]; exact hBN
  have htCN : ((uasTitled X i ci).tabContents.map (fun c => c.id)).Nodup := by
    rw [hcmap]; exact hCN
  have hbeq := updateTabAccessibility_buttons_eq (uasTitled X i ci) htBN htCN
  have hceq := updateTabAccessibility_contents_eq (uasTitled X i ci) htBN htCN
  have htbi : (uasTitled X i ci).tabButtons[i]? = some { bX with activeClass := true } := by
    rw [htb]
    exact getElem?_set_some (by rw [List.getElem?_map, hi]; rfl)
  have htbj : ∀ j, j ≠ i → (uasTitled X i ci).tabButtons[j]?
      = (X.tabButtons[j]?).map (fun bb => { bb with activeClass := false }) := by
    intro j hj
    rw [htb, List.getElem?_set_ne (fun he => hj he.symm), List.getElem?_map]
  have hactT : ∀ j, activeAt (uasTitled X i ci) j = true ↔ j = i := by
    intro j
    by_cases hji : j = i
    · subst hji
      unfold activeAt
      rw [htbi]
      simp
    · unfold activeAt
      rw [htbj j hji]
      rcases hXj : X.tabButtons[j]? with _ | xb
      · simp [hji]
      · simp [hji]
  have hwbX0 : firstIdx
      (fun bb => bb.dataTab == (({ bX with activeClass := true } : TabButton)).dataTab)
      (uasTitled X i ci).tabButtons = some i :=
    firstIdx_nodup_map (fun bb => bb.dataTab) (uasTitled X i ci).tabButtons htBN
      i { bX with activeClass := true } htbi
  have hwbX : accessWriter (uasTitled X i ci) bX.dataTab = some i := hwbX0
  have hwA : ∀ cid, cid ∈ X.tabContents.map (fun c => c.id) →
      ∃ j, accessWriter (uasTitled X i ci) cid = some j ∧
        j < (uasTitled X i ci).tabButtons.length ∧
        (activeAt (uasTitled X i ci) j = true ↔ cid = bX.dataTab) := by
    intro cid hcid
    have hmem : cid ∈ (uasTitled X i ci).tabButtons.map (fun bb => bb.dataTab) := by
      rw [hbmap]; exact hbij cid hcid
    obtain ⟨j, hj⟩ := firstIdx_isSome_of_mem (fun bb => bb.dataTab) cid
      (uasTitled X i ci).tabButtons hmem
    refine ⟨j, hj, firstIdx_lt_length hj, ?_⟩
    rw [hactT j]
    constructor
    · intro hje
      subst hje
      obtain ⟨a, ha, hpa⟩ := firstIdx_some hj
      rw [htbi] at ha
      have hae : ({ bX with activeClass := true } : TabButton) = a := Option.some.inj ha
      have had : a.dataTab = cid := eq_of_beq hpa
      rw [← hae] at had
      exact had.symm
    · intro hcb
      have hj2 : accessWriter (uasTitled X i ci) cid = some j := hj
      rw [hcb, hwbX] at hj2
      exact (Option.some.inj hj2).symm
  have hcountB : (updateTabAccessibility (uasTitled X i ci)).tabButtons.countP
      (fun bb => bb.ariaSelected == some true) = 1 := by
    rw [hbeq, List.countP_map]
    have hpred : ((fun bb => bb.ariaSelected == some true) ∘ accessBtn)
        = fun bb => bb.activeClass := by
      funext bb
      show ((accessBtn bb).ariaSelected == some true) = bb.activeClass
      unfold accessBtn
      simp only []
      cases bb.activeClass <;> rfl
    rw [hpred, htb]
    have hset := countP_set' (fun bb => bb.activeClass)
      (X.tabButtons.map (fun bb => { bb with activeClass := false })) i
      { bX with activeClass := false } { bX with activeClass := true }
      (by rw [List.getElem?_map, hi]; rfl)
    have hzero : (X.tabButtons.map (fun bb => { bb with activeClass := false })).countP
        (fun bb => bb.activeClass) = 0 := by
      rw [List.countP_map, List.countP_eq_zero]
      intro a ha
      simp
    rw [hzero] at hset
    simp at hset
    omega
  have hptB : ∀ (j : Nat) (bb : TabButton),
      (updateTabAccessibility (uasTitled X i ci)).tabButtons[j]? = some bb →
      (bb.ariaSelected = some true → bb.dataTab = bX.dataTab ∧ bb.tabIndexAttr = some 0) ∧
      (bb.ariaSelected ≠ some true →
        bb.ariaSelected = some false ∧ bb.tabIndexAttr = some (-1)) := by
    intro j bb hjb
    rw [hbeq, List.getElem?_map] at hjb
    rcases htj : (uasTitled X i ci).tabButtons[j]? with _ | tb0
    · rw [htj] at hjb; simp at hjb
    · rw [htj] at hjb
      simp only [Option.map_some', Option.some.injEq] at hjb
      by_cases hji : j = i
      · subst hji
        rw [htbi] at htj
        have htb0 : tb0 = { bX with activeClass := true } := (Option.some.inj htj).symm
        subst htb0
        rw [← hjb]
        constructor
        · intro _
          exact ⟨rfl, rfl⟩
        · intro hne
          exact absurd rfl hne
      · rw [htbj j hji] at htj
        rcases hXj : X.tabButtons[j]? with _ | xb
        · rw [hXj] at htj; simp at htj
        · rw [hXj] at htj
          simp only [Option.map_some', Option.some.injEq] at htj
          rw [← hjb, ← htj]
          constructor
          · intro hsel
            exfalso
            simp [accessBtn] at hsel
          · intro _
            exact ⟨rfl, rfl⟩
  have hpointC : ∀ c ∈ (uasTitled X i ci).tabContents,
      ((accessPanelFinal (uasTitled X i ci) (uasTitled X i ci).tabButtons.length c).ariaHidden
          == some false) = (c.id == bX.dataTab) := by
    intro c hc
    have hcid : c.id ∈ X.tabContents.map (fun cc => cc.id) := by
      rw [← hcmap]
      exact List.mem_map_of_mem (fun cc => cc.id) hc
    obtain ⟨j, hw, hjlt, hiff⟩ := hwA c.id hcid
    unfold accessPanelFinal
    simp only [hw]
    rw [if_pos hjlt]
    cases hact : activeAt (uasTitled X i ci) j with
    | false =>
      rw [hact] at hiff
      have hne : c.id ≠ bX.dataTab := fun he => by
        have hft := hiff.mpr he
        cases hft
      simp [accessPanel, hne]
    | true =>
      rw [hact] at hiff
      have he : c.id = bX.dataTab := hiff.mp rfl
      simp [accessPanel, he]
  have hcountC : (updateTabAccessibility (uasTitled X i ci)).tabContents.countP
      (fun c => c.ariaHidden == some false) = 1 := by
    rw [hceq, List.countP_map]
    have hcc := countP_congr'
      ((fun c : TabPanel => c.ariaHidden == some false)
        ∘ accessPanelFinal (uasTitled X i ci) (uasTitled X i ci).tabButtons.length)
      (fun c : TabPanel => c.id == bX.dataTab) (uasTitled X i ci).tabContents
      (fun c hc => hpointC c hc)
    rw [hcc]
    have h1 : ((uasTitled X i ci).tabContents.map (fun c => c.id)).countP
        (fun y => y == bX.dataTab) = 1 := by
      apply countP_beq_nodup bX.dataTab _ htCN
      rw [hcmap]; exact hex
    rw [List.countP_map] at h1
    exact h1
  have hptC : ∀ (m : Nat) (c : TabPanel),
      (updateTabAccessibility (uasTitled X i ci)).tabContents[m]? = some c →
      (c.ariaHidden = some false ↔ c.id = bX.dataTab) ∧
      (c.ariaHidden = some false ∨ c.ariaHidden = some true) := by
    intro m c hmc
    rw [hceq, List.getElem?_map] at hmc
    rcases htm : (uasTitled X i ci).tabContents[m]? with _ | c0
    · rw [htm] at hmc; simp at hmc
    · rw [htm] at hmc
      simp only [Option.map_some', Option.some.injEq] at hmc
      have hc0mem : c0 ∈ (uasTitled X i ci).tabContents := List.getElem?_mem htm
      have hcid : c0.id ∈ X.tabContents.map (fun cc => cc.id) := by
        rw [← hcmap]
        exact List.mem_map_of_mem (fun cc => cc.id) hc0mem
      obtain ⟨j, hw, hjlt, hiff⟩ := hwA c0.id hcid
      rw [← hmc]
      unfold accessPanelFinal
      simp only [hw]
      rw [if_pos hjlt]
      cases hact : activeAt (uasTitled X i ci) j with
      | false =>
        rw [hact] at hiff
        constructor
        · constructor
          · intro hfalse
            exfalso
            simp [accessPanel] at hfalse
          · intro he
            have hft := hiff.mpr he
            cases hft
        · right
          simp [accessPanel]
      | true =>
        rw [hact] at hiff
        constructor
        · constructor
          · intro _
            exact hiff.mp rfl
          · intro _
            rfl
        · left
          rfl
  exact ⟨hcountB, hptB, hcountC, hptC⟩

/-- Recording activeTab and clearing the loading class preserves the
accessibility conclusions of updateActiveStates. -/
theorem accessCommit_lift (g : TabsState) (i : Nat) (td dt : String)
    (hcB : g.tabButtons.countP (fun bb => bb.ariaSelected == some true) = 1)
    (hpB : ∀ (j : Nat) (bb : TabButton), g.tabButtons[j]? = some bb →
        (bb.ariaSelected = some true → bb.dataTab = dt ∧ bb.tabIndexAttr = some 0) ∧
        (bb.ariaSelected ≠ some true →
          bb.ariaSelected = some false ∧ bb.tabIndexAttr = some (-1)))
    (hcC : g.tabContents.countP (fun c => c.ariaHidden == some false) = 1)
    (hpC : ∀ (m : Nat) (c : TabPanel), g.tabContents[m]? = some c →
        (c.ariaHidden = some false ↔ c.id = dt) ∧
        (c.ariaHidden = some false ∨ c.ariaHidden = some true)) :
    ((updateButtonAt { g with activeTab := some td } i
        (fun bb => { bb with loadingClass := false })).tabButtons.countP
        (fun bb => bb.ariaSelected == some true) = 1) ∧
    (∀ (j : Nat) (bb : TabButton), (updateButtonAt { g with activeTab := some td } i
        (fun bb => { bb with loadingClass := false })).tabButtons[j]? = some bb →
        (bb.ariaSelected = some true → bb.dataTab = dt ∧ bb.tabIndexAttr = some 0) ∧
        (bb.ariaSelected ≠ some true →
          bb.ariaSelected = some false ∧ bb.tabIndexAttr = some (-1))) ∧
    ((updateButtonAt { g with activeTab := some td } i
        (fun bb => { bb with loadingClass := false })).tabContents.countP
        (fun c => c.ariaHidden == some false) = 1) ∧
    (∀ (m : Nat) (c : TabPanel), (updateButtonAt { g with activeTab := some td } i
        (fun bb => { bb with loadingClass := false })).tabContents[m]? = some c →
        (c.ariaHidden = some false ↔ c.id = dt) ∧
        (c.ariaHidden = some false ∨ c.ariaHidden = some true)) := by
  refine ⟨?_, ?_, ?_, ?_⟩
  · exact (updateButtonAt_countP { g with activeTab := some td } i
      (fun bb => { bb with loadingClass := false })
      (fun bb => bb.ariaSelected == some true) (fun bb => rfl)).trans hcB
  · intro j bb hjb
    rcases updateButtonAt_getElem_cases { g with activeTab := some td } i j
        (fun bb => { bb with loadingClass := false }) with hcase | ⟨x, hx, hx2⟩
    · rw [hcase] at hjb
      exact hpB j bb hjb
    · rw [hx2] at hjb
      have hbbx : bb = { x with loadingClass := false } := (Option.some.inj hjb).symm
      have hPx := hpB j x hx
      subst hbbx
      exact hPx
  · exact (congrArg (fun l => l.countP (fun c => c.ariaHidden == some false))
      (updateButtonAt_tabContents { g with activeTab := some td } i
        (fun bb => { bb with loadingClass := false }))).trans hcC
  · intro m c hmc
    rw [updateButtonAt_tabContents] at hmc
    exact hpC m c hmc

/-- The committed state of a successful switch satisfies the accessibility
invariant, given a well-formed registry in the pre-switch state `s1`. -/
theorem switchCommitState_access (fO : FetchOracle) (iO : ImgOracle) (s1 : TabsState)
    (i ci : Nat) (b : TabButton) (target : TabPanel)
    (hBN : (s1.tabButtons.map (fun bb => bb.dataTab)).Nodup)
    (hCN : (s1.tabContents.map (fun c => c.id)).Nodup)
    (hbij : ∀ cid ∈ s1.tabContents.map (fun c => c.id),
        cid ∈ s1.tabButtons.map (fun bb => bb.dataTab))
    (hb : s1.tabButtons[i]? = some b)
    (hc : findContentIdx s1 b.dataTab = some ci)
    (hcc : s1.tabContents[ci]? = some target) :
    ((switchCommitState fO iO s1 i ci b.dataTab target).activeTab = some b.dataTab) ∧
    ((switchCommitState fO iO s1 i ci b.dataTab target).tabButtons.countP
        (fun bb => bb.ariaSelected == some true) = 1) ∧
    (∀ (j : Nat) (bb : TabButton),
        (switchCommitState fO iO s1 i ci b.dataTab target).tabButtons[j]? = some bb →
        (bb.ariaSelected = some true → bb.dataTab = b.dataTab ∧ bb.tabIndexAttr = some 0) ∧
        (bb.ariaSelected ≠ some true →
          bb.ariaSelected = some false ∧ bb.tabIndexAttr = some (-1))) ∧
    ((switchCommitState fO iO s1 i ci b.dataTab target).tabContents.countP
        (fun c => c.ariaHidden == some false) = 1) ∧
    (∀ (m : Nat) (c : TabPanel),
        (switchCommitState fO iO s1 i ci b.dataTab target).tabContents[m]? = some c →
        (c.ariaHidden = some false ↔ c.id = b.dataTab) ∧
        (c.ariaHidden = some false ∨ c.ariaHidden = some true)) := by
  have hXb : (switchFadeInState fO iO s1 i ci b.dataTab target).tabButtons.map
        (fun bb => bb.dataTab)
      = s1.tabButtons.map (fun bb => bb.dataTab) :=
    switchFadeInState_buttons_dataTab fO iO s1 i ci b.dataTab target
  have hXc : (switchFadeInState fO iO s1 i ci b.dataTab target).tabContents.map
        (fun c => c.id)
      = s1.tabContents.map (fun c => c.id) :=
    switchFadeInState_contents_idmap fO iO s1 i ci b.dataTab target hcc
  have hXBN : ((switchFadeInState fO iO s1 i ci b.dataTab target).tabButtons.map
      (fun bb => bb.dataTab)).Nodup := by
    rw [hXb]; exact hBN
  have hXCN : ((switchFadeInState fO iO s1 i ci b.dataTab target).tabContents.map
      (fun c => c.id)).Nodup := by
    rw [hXc]; exact hCN
  have hXbij : ∀ cid ∈ (switchFadeInState fO iO s1 i ci b.dataTab target).tabContents.map
        (fun c => c.id),
      cid ∈ (switchFadeInState fO iO s1 i ci b.dataTab target).tabButtons.map
        (fun bb => bb.dataTab) := by
    intro cid hcid
    rw [hXb]
    rw [hXc] at hcid
    exact hbij cid hcid
  have hlen : (switchFadeInState fO iO s1 i ci b.dataTab target).tabButtons.length
      = s1.tabButtons.length := by
    have h2 := congrArg List.length hXb
    simpa using h2
  have hilt : i < (switchFadeInState fO iO s1 i ci b.dataTab target).tabButtons.length := by
    rw [hlen]
    exact lt_length_of_getElem? hb
  obtain ⟨bX, hXi⟩ : ∃ bX,
      (switchFadeInState fO iO s1 i ci b.dataTab target).tabButtons[i]? = some bX :=
    ⟨(switchFadeInState fO iO s1 i ci b.dataTab target).tabButtons[i],
      List.getElem?_eq_getElem hilt⟩
  have hbd : bX.dataTab = b.dataTab := by
    have h1 : ((switchFadeInState fO iO s1 i ci b.dataTab target).tabButtons.map
          (fun bb => bb.dataTab))[i]?
        = (s1.tabButtons.map (fun bb => bb.dataTab))[i]? := by rw [hXb]
    rw [List.getElem?_map, List.getElem?_map, hXi, hb] at h1
    simp only [Option.map_some'] at h1
    exact Option.some.inj h1
  have htid : target.id = b.dataTab := by
    obtain ⟨a, ha2, hpa⟩ := firstIdx_some hc
    rw [hcc] at ha2
    have hta : target = a := Option.some.inj ha2
    rw [hta]
    exact eq_of_beq hpa
  have hex : bX.dataTab
      ∈ (switchFadeInState fO iO s1 i ci b.dataTab target).tabContents.map
        (fun c => c.id) := by
    rw [hXc, hbd, ← htid]
    exact List.mem_map_of_mem (fun c => c.id) (List.getElem?_mem hcc)
  obtain ⟨hcB, hpB, hcC, hpC⟩ :=
    updateActiveStates_access (switchFadeInState fO iO s1 i ci b.dataTab target) i ci bX
      hXBN hXCN hXbij hXi hex
  have hlift := accessCommit_lift
    (updateActiveStates (switchFadeInState fO iO s1 i ci b.dataTab target) i ci) i
    b.dataTab bX.dataTab hcB hpB hcC hpC
  rw [hbd] at hlift
  exact ⟨switchCommitState_activeTab fO iO s1 i ci b.dataTab target,
    hlift.1, hlift.2.1, hlift.2.2.1, hlift.2.2.2⟩

theorem clearTrans_tabButtons (x : TabsState) :
    ({ x with transitioning := false } : TabsState).tabButtons = x.tabButtons := rfl

theorem clearTrans_tabContents (x : TabsState) :
    ({ x with transitioning := false } : TabsState).tabContents = x.tabContents := rfl

theorem clearTrans_activeTab (x : TabsState) :
    ({ x with transitioning := false } : TabsState).activeTab = x.activeTab := rfl

/-- C6: after every completed switch on a well-formed registry (unique trigger
data-tabs, unique panel ids, every panel referenced by a trigger), the
accessibility synchronization establishes the invariant: activeTab records the
switched-to trigger's data-tab; exactly one trigger carries aria-selected
true, every trigger with aria-selected true is the activated one (its data-tab
equals the new active tab id) and has tabindex 0, while every other trigger
carries aria-selected false with tabindex -1; exactly one panel carries
aria-hidden false, a panel is unhidden exactly when its id equals the new
active tab id, and every other panel carries aria-hidden true. -/
theorem c6_accessibility_sync (fO : FetchOracle) (iO : ImgOracle) (s : TabsState)
    (i ci : Nat) (b : TabButton) (target : TabPanel)
    (hwf : wellFormed s)
    (hb : s.tabButtons[i]? = some b) (ht : s.transitioning = false)
    (ha : b.activeClass = false)
    (hc : findContentIdx s b.dataTab = some ci)
    (hcc : s.tabContents[ci]? = some target)
    (hthrew : (preloadTabContent fO iO target).threw = false) :
    (switchToTab fO iO s i).result = SwitchResult.completed ∧
    (switchToTab fO iO s i).state.activeTab = some b.dataTab ∧
    ((switchToTab fO iO s i).state.tabButtons.countP
        (fun bb => bb.ariaSelected == some true) = 1) ∧
    (∀ (j : Nat) (bb : TabButton),
        (switchToTab fO iO s i).state.tabButtons[j]? = some bb →
        (bb.ariaSelected = some true → bb.dataTab = b.dataTab ∧ bb.tabIndexAttr = some 0) ∧
        (bb.ariaSelected ≠ some true →
          bb.ariaSelected = some false ∧ bb.tabIndexAttr = some (-1))) ∧
    ((switchToTab fO iO s i).state.tabContents.countP
        (fun c => c.ariaHidden == some false) = 1) ∧
    (∀ (m : Nat) (c : TabPanel),
        (switchToTab fO iO s i).state.tabContents[m]? = some c →
        (c.ariaHidden = some false ↔ c.id = b.dataTab) ∧
        (c.ariaHidden = some false ∨ c.ariaHidden = some true)) := by
  obtain ⟨hBN, hCN, hbij⟩ := hwf
  obtain ⟨hAT, hcB, hpB, hcC, hpC⟩ := switchCommitState_access fO iO
    { s with transitioning := true } i ci b target hBN hCN hbij hb hc hcc
  have hswt : switchToTab fO iO s i
      = { state := { switchCommitState fO iO { s with transitioning := true } i ci
            b.dataTab target with transitioning := false },
          effects := Effect.urlPush b.dataTab :: (preloadTabContent fO iO target).effects
            ++ [Effect.animationRun, Effect.tabChangeEvent b.dataTab],
          result := SwitchResult.completed,
          suspended := [switchPrelude { s with transitioning := true } i b.dataTab,
            switchLoadedState fO iO { s with transitioning := true } i ci b.dataTab target,
            switchFadeOutState fO iO { s with transitioning := true } i ci b.dataTab target,
            switchSwapState fO iO { s with transitioning := true } i ci b.dataTab target,
            switchFadeInState fO iO { s with transitioning := true } i ci b.dataTab target] } :=
    (switchToTab_attempt_eq fO iO s i b ci target hb ht ha hc hcc).trans
      (switchAttempt_completed fO iO { s with transitioning := true } i ci b.dataTab target
        hthrew)
  have hresult : (switchToTab fO iO s i).result = SwitchResult.completed := by
    rw [hswt]
  have hstate : (switchToTab fO iO s i).state
      = { switchCommitState fO iO { s with transitioning := true } i ci b.dataTab target with
          transitioning := false } := by
    rw [hswt]
  have hbuttons : (switchToTab fO iO s i).state.tabButtons
      = (switchCommitState fO iO { s with transitioning := true } i ci
          b.dataTab target).tabButtons := by
    rw [hstate, clearTrans_tabButtons]
  have hcontents : (switchToTab fO iO s i).state.tabContents
      = (switchCommitState fO iO { s with transitioning := true } i ci
          b.dataTab target).tabContents := by
    rw [hstate, clearTrans_tabContents]
  have hactive : (switchToTab fO iO s i).state.activeTab
      = (switchCommitState fO iO { s with transitioning := true } i ci
          b.dataTab target).activeTab := by
    rw [hstate, clearTrans_activeTab]
  refine ⟨hresult, hactive.trans hAT, ?_, ?_, ?_, ?_⟩
  · exact (congrArg (fun l =>
      l.countP (fun bb => bb.ariaSelected == some true)) hbuttons).trans hcB
  · intro j bb hjb
    rw [hbuttons] at hjb
    exact hpB j bb hjb
  · exact (congrArg (fun l =>
      l.countP (fun c => c.ariaHidden == some false)) hcontents).trans hcC
  · intro m c hmc
    rw [hcontents] at hmc
    exact hpC m c hmc

/-- C6 witness: the completed switch to tab b on the well-formed two-tab
fixture satisfies the accessibility invariant. -/
theorem c6_witness :
    wellFormed sTwoTabs ∧
    ((switchToTab okOracle allImgsOk sTwoTabs 1).result = SwitchResult.completed ∧
     (switchToTab okOracle allImgsOk sTwoTabs 1).state.activeTab
        = some (mkButton "b" false).dataTab ∧
     ((switchToTab okOracle allImgsOk sTwoTabs 1).state.tabButtons.countP
        (fun bb => bb.ariaSelected == some true) = 1) ∧
     (∀ (j : Nat) (bb : TabButton),
        (switchToTab okOracle allImgsOk sTwoTabs 1).state.tabButtons[j]? = some bb →
        (bb.ariaSelected = some true →
          bb.dataTab = (mkButton "b" false).dataTab ∧ bb.tabIndexAttr = some 0) ∧
        (bb.ariaSelected ≠ some true →
          bb.ariaSelected = some false ∧ bb.tabIndexAttr = some (-1))) ∧
     ((switchToTab okOracle allImgsOk sTwoTabs 1).state.tabContents.countP
        (fun c => c.ariaHidden == some false) = 1) ∧
     (∀ (m : Nat) (c : TabPanel),
        (switchToTab okOracle allImgsOk sTwoTabs 1).state.tabContents[m]? = some c →
        (c.ariaHidden = some false ↔ c.id = (mkButton "b" false).dataTab) ∧
        (c.ariaHidden = some false ∨ c.ariaHidden = some true))) :=
  ⟨⟨by decide, by decide, by decide⟩,
   c6_accessibility_sync okOracle allImgsOk sTwoTabs 1 1 (mkButton "b" false)
     (mkPanel "b" false) ⟨by decide, by decide, by decide⟩ (by decide) (by decide) (by decide)
     (by decide) (by decide) (by decide)⟩

end Fodasu
